import Mathlib

/-!
Verification of the UB-matrix notebook (Busing-Levy four-circle diffractometer
formalism).  The notebook computes reciprocal-cell constants from a direct unit
cell via the metric tensor, converts goniometer angles to Cartesian scattering
vectors, builds the B matrix, determines the orientation matrix U from two
assigned reflections, and indexes angular positions back to HKL.

All numerical code is embedded over the real numbers: numpy float arithmetic
becomes exact real arithmetic, `np.linalg.inv` (which raises `LinAlgError` on a
singular input) becomes an `Option`-valued inverse where a claim is about that
failure, and the ordinary Mathlib matrix inverse where the matrix is proved
invertible.
-/

noncomputable section

/-- Modelled from the spec: the `trigonometry` helper module imported by the
notebook (`from trigonometry import sin, cos, arccos`) is not part of the
source tree.  Per the spec, angles are in degrees at the API boundary and are
converted internally to radians, so `sin` is the degree-argument sine. -/
def sin (x : ℝ) : ℝ := Real.sin (x * (Real.pi / 180))

/-- Modelled from the spec: degree-argument cosine from the `trigonometry`
helper module (see `sin`). -/
def cos (x : ℝ) : ℝ := Real.cos (x * (Real.pi / 180))

/-- Modelled from the spec: degree-valued arccosine from the `trigonometry`
helper module (see `sin`): the radian arccosine converted to degrees. -/
def arccos (x : ℝ) : ℝ := Real.arccos x * (180 / Real.pi)

/-- Dot product of two 3-vectors (`np.dot` applied to vectors). -/
def dot3 (v w : Fin 3 → ℝ) : ℝ := v 0 * w 0 + v 1 * w 1 + v 2 * w 2

/-- Cross product of two 3-vectors (`np.cross`). -/
def cross3 (v w : Fin 3 → ℝ) : Fin 3 → ℝ :=
  ![v 1 * w 2 - v 2 * w 1, v 2 * w 0 - v 0 * w 2, v 0 * w 1 - v 1 * w 0]

/-- Euclidean norm of a 3-vector (`np.linalg.norm`). -/
def norm3 (v : Fin 3 → ℝ) : ℝ := Real.sqrt (v 0 ^ 2 + v 1 ^ 2 + v 2 ^ 2)

/-- Wavelength from the notebook: `lam = 12398/10000`. -/
def lam : ℝ := 12398 / 10000

/-- Direct cell length `a = 5.811`. -/
def a : ℝ := 5.811

/-- Direct cell length `b = 10.07`. -/
def b : ℝ := 10.07

/-- Direct cell length `c = 6.628`. -/
def c : ℝ := 6.628

/-- Direct cell angle `alpha = 90` (degrees). -/
def alpha : ℝ := 90

/-- Direct cell angle `beta = 100.7` (degrees). -/
def beta : ℝ := 100.7

/-- Direct cell angle `gamma = 90` (degrees). -/
def gamma : ℝ := 90

/-- The metric tensor of a general direct cell, exactly as built in the
notebook (`M = np.array([[a**2, a*b*cos(gamma), a*c*cos(beta)], ...])`),
parametrised by the six cell constants. -/
def metricM (a' b' c' alpha' beta' gamma' : ℝ) : Matrix (Fin 3) (Fin 3) ℝ :=
  !![a' ^ 2,            a' * b' * cos gamma', a' * c' * cos beta';
     a' * b' * cos gamma', b' ^ 2,            b' * c' * cos alpha';
     a' * c' * cos beta',  b' * c' * cos alpha', c' ^ 2]

/-- The notebook's metric tensor `M` for the example cell. -/
def M : Matrix (Fin 3) (Fin 3) ℝ := metricM a b c alpha beta gamma

/-- The notebook's `Minv = (2*np.pi)**2 * np.linalg.inv(M)`.  The example
metric tensor is invertible (proved below), so the Mathlib inverse agrees with
`np.linalg.inv`. -/
def Minv : Matrix (Fin 3) (Fin 3) ℝ := ((2 * Real.pi) ^ 2) • M⁻¹

/-- Reciprocal length `a_star = np.sqrt(Minv[0, 0])`. -/
def a_star : ℝ := Real.sqrt (Minv 0 0)

/-- Reciprocal length `b_star = np.sqrt(Minv[1, 1])`. -/
def b_star : ℝ := Real.sqrt (Minv 1 1)

/-- Reciprocal length `c_star = np.sqrt(Minv[2, 2])`. -/
def c_star : ℝ := Real.sqrt (Minv 2 2)

/-- Reciprocal angle `alpha_star = arccos(Minv[1, 2]/(b_star*c_star))`. -/
def alpha_star : ℝ := arccos (Minv 1 2 / (b_star * c_star))

/-- Reciprocal angle `beta_star = arccos(Minv[0, 2]/(a_star*c_star))`. -/
def beta_star : ℝ := arccos (Minv 0 2 / (a_star * c_star))

/-- Reciprocal angle `gamma_star = arccos(Minv[0, 1]/(a_star*b_star))`. -/
def gamma_star : ℝ := arccos (Minv 0 1 / (a_star * b_star))

/-- `np.linalg.inv` as a fallible operation: it raises `LinAlgError` exactly
when the matrix is singular, embedded as an `Option`-valued inverse. -/
def inv3 (A : Matrix (Fin 3) (Fin 3) ℝ) : Option (Matrix (Fin 3) (Fin 3) ℝ) :=
  if A.det = 0 then none else some A⁻¹

/-- The notebook's reciprocal-cell computation (metric tensor, inversion,
`(2*np.pi)**2` scaling, square roots of the diagonal, arccos of the normalised
off-diagonal entries) as a function of the six direct-cell constants,
returning `none` exactly where `np.linalg.inv` raises.  Output order:
`(a_star, b_star, c_star, alpha_star, beta_star, gamma_star)`. -/
def reciprocalCell (a' b' c' alpha' beta' gamma' : ℝ) :
    Option (ℝ × ℝ × ℝ × ℝ × ℝ × ℝ) :=
  (inv3 (metricM a' b' c' alpha' beta' gamma')).map fun Mi =>
    let Mv := ((2 * Real.pi) ^ 2) • Mi
    let as' := Real.sqrt (Mv 0 0)
    let bs' := Real.sqrt (Mv 1 1)
    let cs' := Real.sqrt (Mv 2 2)
    (as', bs', cs',
      arccos (Mv 1 2 / (bs' * cs')),
      arccos (Mv 0 2 / (as' * cs')),
      arccos (Mv 0 1 / (as' * bs')))

/-- Positive definiteness of a (symmetric) 3x3 real matrix, stated via its
quadratic form; used to express the spec's "valid cell" hypothesis. -/
def PosDef3 (A : Matrix (Fin 3) (Fin 3) ℝ) : Prop :=
  ∀ v : Fin 3 → ℝ, v ≠ 0 → 0 < dot3 v (A.mulVec v)

/-- The unit vector built inside `angles2cart` from `omega`, `chi`, `phi`
(Busing-Levy rotation composition; `q_carterian_unit_vector` in the source). -/
def q_carterian_unit_vector (omega chi phi : ℝ) : Fin 3 → ℝ :=
  ![cos omega * cos chi * cos phi - sin omega * sin phi,
    cos omega * cos chi * sin phi + sin omega * cos phi,
    cos omega * sin chi]

/-- The notebook's `angles2cart(tth, th, chi, phi, lam)`:
`omega = th - tth/2`, then `q_cart = 4*np.pi*sin(tth/2)*unit/lam`. -/
def angles2cart (tth th chi phi lam : ℝ) : Fin 3 → ℝ :=
  fun i => 4 * Real.pi * sin (tth / 2) * q_carterian_unit_vector (th - tth / 2) chi phi i / lam

/-- The notebook's B matrix built from the example reciprocal constants. -/
def B : Matrix (Fin 3) (Fin 3) ℝ :=
  !![a_star, b_star * cos gamma_star, c_star * cos beta_star;
     0,      b_star * sin gamma_star, -c_star * sin beta_star * cos alpha;
     0,      0,                       2 * Real.pi / c]

/-- First calibration reflection position `(44.7580, 22.3790, 90.0000, 0)`. -/
def position_1 : ℝ × ℝ × ℝ × ℝ := (44.7580, 22.3790, 90.0000, 0)

/-- Second calibration reflection position `(55.8185, 14.7355, 90.0000, 0)`. -/
def position_2 : ℝ × ℝ × ℝ × ℝ := (55.8185, 14.7355, 90.0000, 0)

/-- First assignment `np.array([0, 0, 4])`. -/
def assignment_1 : Fin 3 → ℝ := ![0, 0, 4]

/-- Second assignment `np.array([-1, 0, 5])`. -/
def assignment_2 : Fin 3 → ℝ := ![-1, 0, 5]

/-- The notebook's `get_T_mat(vec1, vec2)`: columns are `vec1` normalised, the
completing vector `t2 = t3 x t1`, and the normalised cross product `t3`
(`np.stack([t1, t2, t3]).T`). -/
def get_T_mat (vec1 vec2 : Fin 3 → ℝ) : Matrix (Fin 3) (Fin 3) ℝ :=
  let t1 : Fin 3 → ℝ := fun i => vec1 i / norm3 vec1
  let cross : Fin 3 → ℝ := cross3 vec1 vec2
  let t3 : Fin 3 → ℝ := fun i => cross i / norm3 cross
  let t2 : Fin 3 → ℝ := cross3 t3 t1
  Matrix.of fun i j => ![t1, t2, t3] j i

/-- The notebook's `get_U`: `T_pos` from the two measured Cartesian vectors,
`T_ass` from the two assigned Cartesian vectors, and `U = T_pos @ T_ass.T`. -/
def get_U (position_1 : ℝ × ℝ × ℝ × ℝ) (assignment_1 : Fin 3 → ℝ)
    (position_2 : ℝ × ℝ × ℝ × ℝ) (assignment_2 : Fin 3 → ℝ)
    (B : Matrix (Fin 3) (Fin 3) ℝ) (lam : ℝ) : Matrix (Fin 3) (Fin 3) ℝ :=
  let T_pos := get_T_mat
    (angles2cart position_1.1 position_1.2.1 position_1.2.2.1 position_1.2.2.2 lam)
    (angles2cart position_2.1 position_2.2.1 position_2.2.2.1 position_2.2.2.2 lam)
  let T_ass := get_T_mat (B.mulVec assignment_1) (B.mulVec assignment_2)
  T_pos * T_ass.transpose

/-- The notebook's orientation matrix `U` for the two example reflections. -/
def U : Matrix (Fin 3) (Fin 3) ℝ :=
  get_U position_1 assignment_1 position_2 assignment_2 B lam

/-- `UB = np.matmul(U, B)`. -/
def UB : Matrix (Fin 3) (Fin 3) ℝ := U * B

/-- `invUB = np.linalg.inv(UB)`; `UB` is invertible (proved below), so the
Mathlib inverse agrees with `np.linalg.inv`. -/
def invUB : Matrix (Fin 3) (Fin 3) ℝ := UB⁻¹

/-- The notebook's `get_HKL(position, invUB, lam)`:
`np.dot(invUB, angles2cart(*position, lam))`. -/
def get_HKL (position : ℝ × ℝ × ℝ × ℝ) (invUB : Matrix (Fin 3) (Fin 3) ℝ)
    (lam : ℝ) : Fin 3 → ℝ :=
  invUB.mulVec (angles2cart position.1 position.2.1 position.2.2.1 position.2.2.2 lam)

/-! ## Basic facts about the degree trigonometry -/

@[simp] lemma sind_zero : sin 0 = 0 := by simp [sin]

@[simp] lemma cosd_zero : cos 0 = 1 := by simp [cos]

lemma deg90_eq : (90 : ℝ) * (Real.pi / 180) = Real.pi / 2 := by ring

@[simp] lemma sind_90 : sin 90 = 1 := by rw [sin, deg90_eq, Real.sin_pi_div_two]

@[simp] lemma cosd_90 : cos 90 = 0 := by rw [cos, deg90_eq, Real.cos_pi_div_two]

@[simp] lemma sind_neg (x : ℝ) : sin (-x) = -sin x := by
  rw [sin, sin, neg_mul, Real.sin_neg]

@[simp] lemma cosd_neg (x : ℝ) : cos (-x) = cos x := by
  rw [cos, cos, neg_mul, Real.cos_neg]

lemma sind_sq_add_cosd_sq (x : ℝ) : sin x ^ 2 + cos x ^ 2 = 1 :=
  Real.sin_sq_add_cos_sq _

lemma sind_pos {x : ℝ} (h0 : 0 < x) (h1 : x < 180) : 0 < sin x := by
  apply Real.sin_pos_of_pos_of_lt_pi
  · have := Real.pi_pos
    positivity
  · have := Real.pi_pos
    nlinarith

/-! ## Basic facts about 3-vectors -/

@[simp] lemma cross3_apply_0 (v w : Fin 3 → ℝ) :
    cross3 v w 0 = v 1 * w 2 - v 2 * w 1 := rfl

@[simp] lemma cross3_apply_1 (v w : Fin 3 → ℝ) :
    cross3 v w 1 = v 2 * w 0 - v 0 * w 2 := rfl

@[simp] lemma cross3_apply_2 (v w : Fin 3 → ℝ) :
    cross3 v w 2 = v 0 * w 1 - v 1 * w 0 := rfl

lemma sq3_pos {v : Fin 3 → ℝ} (hv : v ≠ 0) : 0 < v 0 ^ 2 + v 1 ^ 2 + v 2 ^ 2 := by
  rcases lt_or_eq_of_le (by positivity : (0 : ℝ) ≤ v 0 ^ 2 + v 1 ^ 2 + v 2 ^ 2) with h | h
  · exact h
  · exfalso
    apply hv
    have h0 : v 0 = 0 := by nlinarith [sq_nonneg (v 0), sq_nonneg (v 1), sq_nonneg (v 2)]
    have h1 : v 1 = 0 := by nlinarith [sq_nonneg (v 0), sq_nonneg (v 1), sq_nonneg (v 2)]
    have h2 : v 2 = 0 := by nlinarith [sq_nonneg (v 0), sq_nonneg (v 1), sq_nonneg (v 2)]
    funext i
    fin_cases i <;> simpa

lemma norm3_nonneg (v : Fin 3 → ℝ) : 0 ≤ norm3 v := Real.sqrt_nonneg _

lemma norm3_pos {v : Fin 3 → ℝ} (hv : v ≠ 0) : 0 < norm3 v :=
  Real.sqrt_pos.mpr (sq3_pos hv)

@[simp] lemma norm3_zero : norm3 (0 : Fin 3 → ℝ) = 0 := by simp [norm3]

lemma ne_zero_of_norm3 {v : Fin 3 → ℝ} (h : norm3 v ≠ 0) : v ≠ 0 := by
  intro hv
  exact h (by rw [hv, norm3_zero])

lemma norm3_sq (v : Fin 3 → ℝ) : norm3 v ^ 2 = v 0 ^ 2 + v 1 ^ 2 + v 2 ^ 2 :=
  Real.sq_sqrt (by positivity)

lemma norm3_scale (k : ℝ) (v : Fin 3 → ℝ) :
    norm3 (fun i => k * v i) = |k| * norm3 v := by
  rw [norm3, norm3]
  rw [show (k * v 0) ^ 2 + (k * v 1) ^ 2 + (k * v 2) ^ 2
      = k ^ 2 * (v 0 ^ 2 + v 1 ^ 2 + v 2 ^ 2) by ring]
  rw [Real.sqrt_mul (sq_nonneg k), Real.sqrt_sq_eq_abs]

lemma dot3_self (v : Fin 3 → ℝ) : dot3 v v = norm3 v ^ 2 := by
  rw [norm3_sq, dot3]; ring

lemma cross3_smul_right (v w : Fin 3 → ℝ) (s : ℝ) :
    cross3 v (s • w) = fun i => s * cross3 v w i := by
  funext i
  fin_cases i <;> simp [Pi.smul_apply, smul_eq_mul] <;> ring

lemma cross3_self_smul (v : Fin 3 → ℝ) (s : ℝ) : cross3 v (s • v) = 0 := by
  funext i
  fin_cases i <;> simp [Pi.smul_apply, smul_eq_mul] <;> ring

lemma cross3_ne_zero_left {v w : Fin 3 → ℝ} (h : cross3 v w ≠ 0) : v ≠ 0 := by
  intro hv
  apply h
  funext i
  fin_cases i <;> simp [hv]

lemma cross3_ne_zero_right {v w : Fin 3 → ℝ} (h : cross3 v w ≠ 0) : w ≠ 0 := by
  intro hw
  apply h
  funext i
  fin_cases i <;> simp [hw]

lemma dot3_cross_left (v w : Fin 3 → ℝ) : dot3 (cross3 v w) v = 0 := by
  simp [dot3]; ring

lemma dot3_cross_self_left (u w : Fin 3 → ℝ) : dot3 u (cross3 u w) = 0 := by
  simp [dot3]; ring

lemma dot3_cross_self_right (u w : Fin 3 → ℝ) : dot3 w (cross3 u w) = 0 := by
  simp [dot3]; ring

lemma dot3_lagrange (u w : Fin 3 → ℝ) :
    dot3 (cross3 u w) (cross3 u w) = dot3 u u * dot3 w w - dot3 u w ^ 2 := by
  simp [dot3]; ring

lemma dot3_triple (u w : Fin 3 → ℝ) :
    dot3 u (cross3 (cross3 w u) w) = dot3 u u * dot3 w w - dot3 u w ^ 2 := by
  simp [dot3]; ring

/-! ## Entries of the T matrix -/

lemma get_T_mat_col0 (vec1 vec2 : Fin 3 → ℝ) (i : Fin 3) :
    get_T_mat vec1 vec2 i 0 = vec1 i / norm3 vec1 := rfl

lemma get_T_mat_col2 (vec1 vec2 : Fin 3 → ℝ) (i : Fin 3) :
    get_T_mat vec1 vec2 i 2 = cross3 vec1 vec2 i / norm3 (cross3 vec1 vec2) := rfl

lemma get_T_mat_col1 (vec1 vec2 : Fin 3 → ℝ) (i : Fin 3) :
    get_T_mat vec1 vec2 i 1
      = cross3 (fun k => cross3 vec1 vec2 k / norm3 (cross3 vec1 vec2))
          (fun k => vec1 k / norm3 vec1) i := rfl

lemma det_of_cols (u v w : Fin 3 → ℝ) :
    (Matrix.of fun i j => ![u, v, w] j i).det = dot3 u (cross3 v w) := by
  rw [Matrix.det_fin_three]
  simp [dot3]
  ring

/-! ## Claim C9: zero scattering angle indexes to the zero HKL -/

/-- Claim C9: for every angular position with `two_theta = 0` and every nonzero
wavelength, `angles2cart` returns exactly the zero vector regardless of
`theta`, `chi`, `phi`, and consequently `get_HKL` maps such a position to
`(0, 0, 0)` for any inverse-UB matrix. -/
theorem C9_two_theta_zero (th chi phi lam' : ℝ) (A : Matrix (Fin 3) (Fin 3) ℝ)
    (hlam : lam' ≠ 0) :
    angles2cart 0 th chi phi lam' = 0 ∧ get_HKL (0, th, chi, phi) A lam' = 0 := by
  have h : angles2cart 0 th chi phi lam' = 0 := by
    funext i
    simp [angles2cart, show (0 : ℝ) / 2 = 0 by norm_num]
  refine ⟨h, ?_⟩
  show A.mulVec (angles2cart 0 th chi phi lam') = 0
  rw [h, Matrix.mulVec_zero]

/-- Witness for C9 at the concrete input `(0, 1, 2, 3)`, `lam = 1`, identity
inverse-UB matrix. -/
theorem C9_witness :
    angles2cart 0 1 2 3 1 = 0 ∧ get_HKL (0, 1, 2, 3) (1 : Matrix (Fin 3) (Fin 3) ℝ) 1 = 0 :=
  C9_two_theta_zero 1 2 3 1 1 (by norm_num)

/-! ## Claim C3: norm of the scattering vector -/

/-- Claim C3 (counterexample): at the angular position
`(two_theta, theta, chi, phi) = (-180, 0, 0, 0)` with `lam = 1` the Euclidean
norm of `angles2cart` is `4*pi`, but the claimed value
`4*pi*sin(two_theta/2)/lam` is `-4*pi`; the signed formula fails where
`sin(two_theta/2)` is negative. -/
theorem C3_counterexample :
    norm3 (angles2cart (-180) 0 0 0 1) ≠ 4 * Real.pi * sin ((-180) / 2) / 1 := by
  have hs : sin ((-180 : ℝ) / 2) = -1 := by
    rw [show ((-180 : ℝ) / 2) = -(90 : ℝ) by norm_num, sind_neg, sind_90]
  have hcomp : ∀ i, angles2cart (-180) 0 0 0 1 i
      = -(4 * Real.pi) * q_carterian_unit_vector 90 0 0 i := by
    intro i
    rw [angles2cart, show (0 : ℝ) - (-180) / 2 = 90 by norm_num, hs]
    ring
  have hunit : q_carterian_unit_vector (90 : ℝ) 0 0 = ![0, 1, 0] := by
    funext i
    fin_cases i <;> simp [q_carterian_unit_vector]
  have hval : norm3 (angles2cart (-180) 0 0 0 1) = 4 * Real.pi := by
    rw [show angles2cart (-180) 0 0 0 1
        = fun i => -(4 * Real.pi) * q_carterian_unit_vector 90 0 0 i from funext hcomp]
    rw [norm3_scale, hunit]
    have hn : norm3 ![(0 : ℝ), 1, 0] = 1 := by
      rw [norm3]
      norm_num
    rw [hn, mul_one, abs_of_nonpos (neg_nonpos.mpr (by positivity))]
    ring
  rw [hval, hs]
  have := Real.pi_pos
  intro h
  nlinarith

/-- Claim C3 (amended): the internal unit vector built from `omega`, `chi`,
`phi` has norm exactly one for all real angles, and the vector returned by
`angles2cart` has Euclidean norm `|4*pi*sin(two_theta/2)/lam|` for every
angular position and wavelength (the signed formula of the claim holds only
when `sin(two_theta/2)/lam` is nonnegative). -/
theorem C3_norm_spec (tth th chi phi lam' : ℝ) :
    norm3 (q_carterian_unit_vector (th - tth / 2) chi phi) = 1 ∧
    norm3 (angles2cart tth th chi phi lam') = |4 * Real.pi * sin (tth / 2) / lam'| := by
  have hunit : ∀ o ch ph : ℝ, norm3 (q_carterian_unit_vector o ch ph) = 1 := by
    intro o ch ph
    have h : q_carterian_unit_vector o ch ph 0 ^ 2
        + q_carterian_unit_vector o ch ph 1 ^ 2
        + q_carterian_unit_vector o ch ph 2 ^ 2 = 1 := by
      simp [q_carterian_unit_vector]
      linear_combination (cos o ^ 2 * cos ch ^ 2 + sin o ^ 2) * sind_sq_add_cosd_sq ph
        + cos o ^ 2 * sind_sq_add_cosd_sq ch + sind_sq_add_cosd_sq o
    rw [norm3, h, Real.sqrt_one]
  refine ⟨hunit _ _ _, ?_⟩
  rw [show angles2cart tth th chi phi lam'
      = fun i => (4 * Real.pi * sin (tth / 2) / lam')
          * q_carterian_unit_vector (th - tth / 2) chi phi i by
    funext i; rw [angles2cart]; ring]
  rw [norm3_scale, hunit, mul_one]

/-! ## Claim C7: parallel reflections and the absent error path -/

/-- Claim C7 (counterexample): feeding the parallel pair `(1,0,0)`, `(2,0,0)`
to `get_T_mat` does not fail — no `ParallelVectorsError` exists in the code —
and a (degenerate) matrix is returned.  In the exact real model the
division-by-zero columns are zero (in floating point they are NaN); either
way a result is produced. -/
theorem C7_counterexample :
    get_T_mat ![(1 : ℝ), 0, 0] ![2, 0, 0] = !![1, 0, 0; 0, 0, 0; 0, 0, 0] := by
  have hn1 : norm3 ![(1 : ℝ), 0, 0] = 1 := by
    rw [norm3]; norm_num
  have hc : cross3 ![(1 : ℝ), 0, 0] ![2, 0, 0] = 0 := by
    funext i
    fin_cases i <;> simp
  have h0 : ∀ i, get_T_mat ![(1 : ℝ), 0, 0] ![2, 0, 0] i 0
      = !![(1 : ℝ), 0, 0; 0, 0, 0; 0, 0, 0] i 0 := by
    intro i
    rw [get_T_mat_col0, hn1]
    fin_cases i <;> norm_num
  have h1 : ∀ i, get_T_mat ![(1 : ℝ), 0, 0] ![2, 0, 0] i 1
      = !![(1 : ℝ), 0, 0; 0, 0, 0; 0, 0, 0] i 1 := by
    intro i
    rw [get_T_mat_col1]
    fin_cases i <;> simp [hc, hn1, Matrix.vecHead, Matrix.vecTail]
  have h2 : ∀ i, get_T_mat ![(1 : ℝ), 0, 0] ![2, 0, 0] i 2
      = !![(1 : ℝ), 0, 0; 0, 0, 0; 0, 0, 0] i 2 := by
    intro i
    rw [get_T_mat_col2, hc]
    fin_cases i <;> simp [Matrix.vecHead, Matrix.vecTail]
  ext i j
  fin_cases j
  · exact h0 i
  · exact h1 i
  · exact h2 i

/-- Claim C7 (amended): the code performs no parallelism check and raises no
error; for any two parallel vectors `v` and `s • v` the cross product is zero
and `get_T_mat` still returns a matrix, whose third column is zero (NaN in
floating point) and whose determinant is zero — a degenerate result instead of
a `ParallelVectorsError`. -/
theorem C7_parallel_returns_degenerate (v : Fin 3 → ℝ) (s : ℝ) :
    cross3 v (s • v) = 0 ∧ (∀ i, get_T_mat v (s • v) i 2 = 0) ∧
    (get_T_mat v (s • v)).det = 0 := by
  have hc : cross3 v (s • v) = 0 := cross3_self_smul v s
  have hcol : ∀ i, get_T_mat v (s • v) i 2 = 0 := by
    intro i
    rw [get_T_mat_col2, hc]
    simp
  refine ⟨hc, hcol, ?_⟩
  rw [Matrix.det_fin_three, hcol 0, hcol 1, hcol 2]
  ring

/-! ## Orthonormality of the T matrix -/

lemma dot3_comm (v w : Fin 3 → ℝ) : dot3 v w = dot3 w v := by
  simp [dot3]; ring

lemma dot3_div_div (v w : Fin 3 → ℝ) (m n : ℝ) :
    dot3 (fun i => v i / m) (fun i => w i / n) = dot3 v w / (m * n) := by
  simp [dot3]; ring

lemma dot3_div_norm_self {v : Fin 3 → ℝ} (hv : v ≠ 0) :
    dot3 (fun i => v i / norm3 v) (fun i => v i / norm3 v) = 1 := by
  rw [dot3_div_div, dot3_self]
  have h := norm3_pos hv
  field_simp
  ring

lemma dot3_cross_div_right_self (u v : Fin 3 → ℝ) (n : ℝ) :
    dot3 (cross3 u (fun k => v k / n)) v = 0 := by
  simp [dot3]; ring

lemma transpose_mul_apply (A : Matrix (Fin 3) (Fin 3) ℝ) (i j : Fin 3) :
    (A.transpose * A) i j = dot3 (fun k => A k i) (fun k => A k j) := by
  simp [Matrix.mul_apply, Matrix.transpose_apply, dot3, Fin.sum_univ_three]

lemma transpose_mulVec_apply (A : Matrix (Fin 3) (Fin 3) ℝ) (v : Fin 3 → ℝ) (i : Fin 3) :
    A.transpose.mulVec v i = dot3 (fun k => A k i) v := by
  simp [Matrix.mulVec, Matrix.transpose_apply, Matrix.dotProduct, dot3, Fin.sum_univ_three]

lemma get_T_mat_colfun0 (v1 v2 : Fin 3 → ℝ) :
    (fun k => get_T_mat v1 v2 k 0) = fun k => v1 k / norm3 v1 := rfl

lemma get_T_mat_colfun2 (v1 v2 : Fin 3 → ℝ) :
    (fun k => get_T_mat v1 v2 k 2) = fun k => cross3 v1 v2 k / norm3 (cross3 v1 v2) := rfl

lemma get_T_mat_colfun1 (v1 v2 : Fin 3 → ℝ) :
    (fun k => get_T_mat v1 v2 k 1)
      = cross3 (fun k => cross3 v1 v2 k / norm3 (cross3 v1 v2))
          (fun k => v1 k / norm3 v1) := rfl

/-- Core orthonormality of `get_T_mat`: if the first input is nonzero and the
cross product of the inputs is nonzero, the T matrix has orthonormal columns
and determinant one. -/
lemma get_T_mat_orthonormal (v1 v2 : Fin 3 → ℝ) (hv1 : v1 ≠ 0)
    (hc : cross3 v1 v2 ≠ 0) :
    (get_T_mat v1 v2).transpose * get_T_mat v1 v2 = 1 ∧ (get_T_mat v1 v2).det = 1 := by
  have hn1 : (0 : ℝ) < norm3 v1 := norm3_pos hv1
  have hnc : (0 : ℝ) < norm3 (cross3 v1 v2) := norm3_pos hc
  have h11 : dot3 (fun k => v1 k / norm3 v1) (fun k => v1 k / norm3 v1) = 1 :=
    dot3_div_norm_self hv1
  have h33 : dot3 (fun k => cross3 v1 v2 k / norm3 (cross3 v1 v2))
      (fun k => cross3 v1 v2 k / norm3 (cross3 v1 v2)) = 1 :=
    dot3_div_norm_self hc
  have h13 : dot3 (fun k => v1 k / norm3 v1)
      (fun k => cross3 v1 v2 k / norm3 (cross3 v1 v2)) = 0 := by
    rw [dot3_div_div, dot3_cross_self_left]
    simp
  have h31 : dot3 (fun k => cross3 v1 v2 k / norm3 (cross3 v1 v2))
      (fun k => v1 k / norm3 v1) = 0 := by
    rw [dot3_comm]; exact h13
  -- abbreviations for the three columns
  have h12 : dot3 (fun k => v1 k / norm3 v1)
      (cross3 (fun k => cross3 v1 v2 k / norm3 (cross3 v1 v2))
        (fun k => v1 k / norm3 v1)) = 0 :=
    dot3_cross_self_right _ _
  have h32 : dot3 (fun k => cross3 v1 v2 k / norm3 (cross3 v1 v2))
      (cross3 (fun k => cross3 v1 v2 k / norm3 (cross3 v1 v2))
        (fun k => v1 k / norm3 v1)) = 0 :=
    dot3_cross_self_left _ _
  have h22 : dot3 (cross3 (fun k => cross3 v1 v2 k / norm3 (cross3 v1 v2))
        (fun k => v1 k / norm3 v1))
      (cross3 (fun k => cross3 v1 v2 k / norm3 (cross3 v1 v2))
        (fun k => v1 k / norm3 v1)) = 1 := by
    rw [dot3_lagrange, h33, h11, h31]
    ring
  constructor
  · have one00 : (1 : Matrix (Fin 3) (Fin 3) ℝ) 0 0 = 1 := by simp
    have one11 : (1 : Matrix (Fin 3) (Fin 3) ℝ) 1 1 = 1 := by simp
    have one22 : (1 : Matrix (Fin 3) (Fin 3) ℝ) 2 2 = 1 := by simp
    set T := get_T_mat v1 v2 with hT
    have e00 : (T.transpose * T) 0 0 = (1 : Matrix (Fin 3) (Fin 3) ℝ) 0 0 := by
      rw [transpose_mul_apply, one00, hT, get_T_mat_colfun0]
      exact h11
    have e01 : (T.transpose * T) 0 1 = (1 : Matrix (Fin 3) (Fin 3) ℝ) 0 1 := by
      rw [transpose_mul_apply, hT, get_T_mat_colfun0, get_T_mat_colfun1, h12]
      simp [Matrix.one_apply]
    have e02 : (T.transpose * T) 0 2 = (1 : Matrix (Fin 3) (Fin 3) ℝ) 0 2 := by
      rw [transpose_mul_apply, hT, get_T_mat_colfun0, get_T_mat_colfun2, h13]
      simp [Matrix.one_apply]
    have e10 : (T.transpose * T) 1 0 = (1 : Matrix (Fin 3) (Fin 3) ℝ) 1 0 := by
      rw [transpose_mul_apply, hT, get_T_mat_colfun0, get_T_mat_colfun1, dot3_comm, h12]
      simp [Matrix.one_apply]
    have e11 : (T.transpose * T) 1 1 = (1 : Matrix (Fin 3) (Fin 3) ℝ) 1 1 := by
      rw [transpose_mul_apply, one11, hT, get_T_mat_colfun1]
      exact h22
    have e12 : (T.transpose * T) 1 2 = (1 : Matrix (Fin 3) (Fin 3) ℝ) 1 2 := by
      rw [transpose_mul_apply, hT, get_T_mat_colfun1, get_T_mat_colfun2, dot3_comm, h32]
      simp [Matrix.one_apply]
    have e20 : (T.transpose * T) 2 0 = (1 : Matrix (Fin 3) (Fin 3) ℝ) 2 0 := by
      rw [transpose_mul_apply, hT, get_T_mat_colfun0, get_T_mat_colfun2, h31]
      simp [Matrix.one_apply]
    have e21 : (T.transpose * T) 2 1 = (1 : Matrix (Fin 3) (Fin 3) ℝ) 2 1 := by
      rw [transpose_mul_apply, hT, get_T_mat_colfun1, get_T_mat_colfun2, h32]
      simp [Matrix.one_apply]
    have e22 : (T.transpose * T) 2 2 = (1 : Matrix (Fin 3) (Fin 3) ℝ) 2 2 := by
      rw [transpose_mul_apply, one22, hT, get_T_mat_colfun2]
      exact h33
    ext i j
    fin_cases i <;> fin_cases j
    · exact e00
    · exact e01
    · exact e02
    · exact e10
    · exact e11
    · exact e12
    · exact e20
    · exact e21
    · exact e22
  · have hdet : (get_T_mat v1 v2).det
        = dot3 (fun k => v1 k / norm3 v1)
            (cross3 (cross3 (fun k => cross3 v1 v2 k / norm3 (cross3 v1 v2))
                (fun k => v1 k / norm3 v1))
              (fun k => cross3 v1 v2 k / norm3 (cross3 v1 v2))) :=
      det_of_cols _ _ _
    rw [hdet, dot3_triple, h11, h33, h13]
    ring

/-! ## Claim C5: TriadBuilder orthonormality -/

/-- Claim C5: for every pair of input vectors with nonzero norms and nonzero
cross product, the matrix returned by `get_T_mat` has mutually orthogonal
unit-norm columns (its transpose times itself is the identity) and
determinant `+1`. -/
theorem C5_T_orthonormal (v1 v2 : Fin 3 → ℝ) (hn1 : norm3 v1 ≠ 0)
    (hn2 : norm3 v2 ≠ 0) (hc : cross3 v1 v2 ≠ 0) :
    (get_T_mat v1 v2).transpose * get_T_mat v1 v2 = 1 ∧ (get_T_mat v1 v2).det = 1 :=
  get_T_mat_orthonormal v1 v2 (ne_zero_of_norm3 hn1) hc

/-- Witness for C5 at the concrete inputs `(1,0,0)` and `(0,1,0)`. -/
theorem C5_witness :
    (get_T_mat ![(1 : ℝ), 0, 0] ![0, 1, 0]).transpose * get_T_mat ![(1 : ℝ), 0, 0] ![0, 1, 0] = 1 ∧
    (get_T_mat ![(1 : ℝ), 0, 0] ![0, 1, 0]).det = 1 := by
  apply C5_T_orthonormal
  · rw [norm3]; norm_num
  · rw [norm3]; norm_num
  · intro h
    have h2 := congrFun h 2
    rw [cross3_apply_2] at h2
    norm_num at h2

/-! ## Evaluation of `angles2cart` at two simple example positions -/

lemma angles2cart_ex1 : angles2cart (180 : ℝ) 90 90 0 1 = ![0, 0, 4 * Real.pi] := by
  have e0 : angles2cart (180 : ℝ) 90 90 0 1 0 = 0 := by
    norm_num [angles2cart, q_carterian_unit_vector]
  have e1 : angles2cart (180 : ℝ) 90 90 0 1 1 = 0 := by
    norm_num [angles2cart, q_carterian_unit_vector]
  have e2 : angles2cart (180 : ℝ) 90 90 0 1 2 = 4 * Real.pi := by
    norm_num [angles2cart, q_carterian_unit_vector]
  funext i
  fin_cases i
  · exact e0
  · exact e1
  · exact e2

lemma angles2cart_ex2 : angles2cart (180 : ℝ) 90 0 0 1 = ![4 * Real.pi, 0, 0] := by
  have e0 : angles2cart (180 : ℝ) 90 0 0 1 0 = 4 * Real.pi := by
    norm_num [angles2cart, q_carterian_unit_vector]
  have e1 : angles2cart (180 : ℝ) 90 0 0 1 1 = 0 := by
    norm_num [angles2cart, q_carterian_unit_vector]
  have e2 : angles2cart (180 : ℝ) 90 0 0 1 2 = 0 := by
    norm_num [angles2cart, q_carterian_unit_vector]
  funext i
  fin_cases i
  · exact e0
  · exact e1
  · exact e2

/-! ## Claim C6: the orientation matrix is a proper rotation -/

/-- Claim C6: for every well-posed input to `get_U` (measured pair and
assigned pair both nonzero and non-parallel) the returned matrix `U` is a
proper rotation: its transpose times itself is the identity and its
determinant is `+1`. -/
theorem C6_U_proper_rotation (p1 p2 : ℝ × ℝ × ℝ × ℝ) (h1 h2 : Fin 3 → ℝ)
    (Bm : Matrix (Fin 3) (Fin 3) ℝ) (lam' : ℝ)
    (hq1 : angles2cart p1.1 p1.2.1 p1.2.2.1 p1.2.2.2 lam' ≠ 0)
    (hq2 : angles2cart p2.1 p2.2.1 p2.2.2.1 p2.2.2.2 lam' ≠ 0)
    (hqc : cross3 (angles2cart p1.1 p1.2.1 p1.2.2.1 p1.2.2.2 lam')
      (angles2cart p2.1 p2.2.1 p2.2.2.1 p2.2.2.2 lam') ≠ 0)
    (hc1 : Bm.mulVec h1 ≠ 0) (hc2 : Bm.mulVec h2 ≠ 0)
    (hcc : cross3 (Bm.mulVec h1) (Bm.mulVec h2) ≠ 0) :
    (get_U p1 h1 p2 h2 Bm lam').transpose * get_U p1 h1 p2 h2 Bm lam' = 1 ∧
    (get_U p1 h1 p2 h2 Bm lam').det = 1 := by
  set Tp := get_T_mat (angles2cart p1.1 p1.2.1 p1.2.2.1 p1.2.2.2 lam')
    (angles2cart p2.1 p2.2.1 p2.2.2.1 p2.2.2.2 lam') with hTpdef
  set Ta := get_T_mat (Bm.mulVec h1) (Bm.mulVec h2) with hTadef
  obtain ⟨hTp, hTpdet⟩ := get_T_mat_orthonormal _ _ hq1 hqc
  obtain ⟨hTa, hTadet⟩ := get_T_mat_orthonormal _ _ hc1 hcc
  have hU : get_U p1 h1 p2 h2 Bm lam' = Tp * Ta.transpose := rfl
  rw [hU]
  constructor
  · rw [Matrix.transpose_mul, Matrix.transpose_transpose, Matrix.mul_assoc,
      ← Matrix.mul_assoc Tp.transpose Tp Ta.transpose, hTp, Matrix.one_mul,
      Matrix.mul_eq_one_comm.mp hTa]
  · rw [Matrix.det_mul, Matrix.det_transpose, hTpdet, hTadet]
    norm_num

/-- Witness for C6 at a concrete well-posed input: two distinct measured
reflections and two basis assignments with the identity as B matrix. -/
theorem C6_witness :
    (get_U (180, 90, 90, 0) ![(1 : ℝ), 0, 0] (180, 90, 0, 0) ![0, 1, 0] 1 1).transpose
      * get_U (180, 90, 90, 0) ![(1 : ℝ), 0, 0] (180, 90, 0, 0) ![0, 1, 0] 1 1 = 1 ∧
    (get_U (180, 90, 90, 0) ![(1 : ℝ), 0, 0] (180, 90, 0, 0) ![0, 1, 0] 1 1).det = 1 := by
  have hπ : (0 : ℝ) < 4 * Real.pi := by positivity
  apply C6_U_proper_rotation
  · show angles2cart (180 : ℝ) 90 90 0 1 ≠ 0
    rw [angles2cart_ex1]
    intro h
    have h2 := congrFun h 2
    norm_num at h2
    exact hπ.ne' (by linarith)
  · show angles2cart (180 : ℝ) 90 0 0 1 ≠ 0
    rw [angles2cart_ex2]
    intro h
    have h0 := congrFun h 0
    norm_num at h0
    exact hπ.ne' (by linarith)
  · show cross3 (angles2cart (180 : ℝ) 90 90 0 1) (angles2cart (180 : ℝ) 90 0 0 1) ≠ 0
    rw [angles2cart_ex1, angles2cart_ex2]
    intro h
    have h1 := congrFun h 1
    rw [cross3_apply_1] at h1
    norm_num at h1
    exact (by positivity : (0 : ℝ) < 4 * Real.pi * (4 * Real.pi)).ne' (by linarith)
  · show (1 : Matrix (Fin 3) (Fin 3) ℝ).mulVec ![(1 : ℝ), 0, 0] ≠ 0
    rw [Matrix.one_mulVec]
    intro h
    have h0 := congrFun h 0
    norm_num at h0
  · show (1 : Matrix (Fin 3) (Fin 3) ℝ).mulVec ![(0 : ℝ), 1, 0] ≠ 0
    rw [Matrix.one_mulVec]
    intro h
    have h1 := congrFun h 1
    norm_num at h1
  · show cross3 ((1 : Matrix (Fin 3) (Fin 3) ℝ).mulVec ![(1 : ℝ), 0, 0])
      ((1 : Matrix (Fin 3) (Fin 3) ℝ).mulVec ![(0 : ℝ), 1, 0]) ≠ 0
    rw [Matrix.one_mulVec, Matrix.one_mulVec]
    intro h
    have h2 := congrFun h 2
    rw [cross3_apply_2] at h2
    norm_num at h2

/-! ## Claim C2: the first reflection is reproduced exactly -/

lemma dot3_div_left (v w : Fin 3 → ℝ) (n : ℝ) :
    dot3 (fun i => v i / n) w = dot3 v w / n := by
  simp [dot3]; ring

lemma mulVec_basis0 (A : Matrix (Fin 3) (Fin 3) ℝ) (x : ℝ) (i : Fin 3) :
    A.mulVec ![x, 0, 0] i = A i 0 * x := by
  simp [Matrix.mulVec, Matrix.dotProduct, Fin.sum_univ_three]

/-- Claim C2: whenever the two measured Cartesian vectors are non-parallel and
the two assigned Cartesian vectors are non-parallel, the matrix `U` returned
by `get_U` maps the first assigned Cartesian vector `c1 = B.h1` to a positive
scalar multiple of the first measured vector `q1`: the first reflection's
direction is reproduced exactly. -/
theorem C2_first_reflection_exact (p1 p2 : ℝ × ℝ × ℝ × ℝ) (h1 h2 : Fin 3 → ℝ)
    (Bm : Matrix (Fin 3) (Fin 3) ℝ) (lam' : ℝ)
    (hqc : cross3 (angles2cart p1.1 p1.2.1 p1.2.2.1 p1.2.2.2 lam')
      (angles2cart p2.1 p2.2.1 p2.2.2.1 p2.2.2.2 lam') ≠ 0)
    (hcc : cross3 (Bm.mulVec h1) (Bm.mulVec h2) ≠ 0) :
    ∃ s : ℝ, 0 < s ∧
      (get_U p1 h1 p2 h2 Bm lam').mulVec (Bm.mulVec h1)
        = s • angles2cart p1.1 p1.2.1 p1.2.2.1 p1.2.2.2 lam' := by
  set q1 := angles2cart p1.1 p1.2.1 p1.2.2.1 p1.2.2.2 lam' with hq1def
  set q2 := angles2cart p2.1 p2.2.1 p2.2.2.1 p2.2.2.2 lam' with hq2def
  set c1 := Bm.mulVec h1 with hc1def
  set c2 := Bm.mulVec h2 with hc2def
  have hq1 : q1 ≠ 0 := cross3_ne_zero_left hqc
  have hc1 : c1 ≠ 0 := cross3_ne_zero_left hcc
  have hnq : (0 : ℝ) < norm3 q1 := norm3_pos hq1
  have hnc : (0 : ℝ) < norm3 c1 := norm3_pos hc1
  refine ⟨norm3 c1 / norm3 q1, div_pos hnc hnq, ?_⟩
  set Tp := get_T_mat q1 q2 with hTpdef
  set Ta := get_T_mat c1 c2 with hTadef
  have hU : get_U p1 h1 p2 h2 Bm lam' = Tp * Ta.transpose := rfl
  rw [hU, ← Matrix.mulVec_mulVec]
  have hTa : Ta.transpose.mulVec c1 = ![norm3 c1, 0, 0] := by
    have e0 : Ta.transpose.mulVec c1 0 = norm3 c1 := by
      rw [transpose_mulVec_apply, hTadef, get_T_mat_colfun0, dot3_div_left, dot3_self]
      rw [sq]
      exact mul_div_cancel_left₀ _ hnc.ne'
    have e1 : Ta.transpose.mulVec c1 1 = 0 := by
      rw [transpose_mulVec_apply, hTadef, get_T_mat_colfun1]
      exact dot3_cross_div_right_self _ _ _
    have e2 : Ta.transpose.mulVec c1 2 = 0 := by
      rw [transpose_mulVec_apply, hTadef, get_T_mat_colfun2, dot3_div_left, dot3_cross_left]
      simp
    funext i
    fin_cases i
    · exact e0
    · exact e1
    · exact e2
  rw [hTa]
  funext i
  rw [mulVec_basis0, hTpdef, get_T_mat_col0]
  rw [Pi.smul_apply, smul_eq_mul]
  field_simp
  ring

/-- Witness for C2 at the same concrete well-posed input as the C6 witness. -/
theorem C2_witness :
    ∃ s : ℝ, 0 < s ∧
      (get_U (180, 90, 90, 0) ![(1 : ℝ), 0, 0] (180, 90, 0, 0) ![0, 1, 0] 1 1).mulVec
          ((1 : Matrix (Fin 3) (Fin 3) ℝ).mulVec ![(1 : ℝ), 0, 0])
        = s • angles2cart (180 : ℝ) 90 90 0 1 := by
  apply C2_first_reflection_exact
  · show cross3 (angles2cart (180 : ℝ) 90 90 0 1) (angles2cart (180 : ℝ) 90 0 0 1) ≠ 0
    rw [angles2cart_ex1, angles2cart_ex2]
    intro h
    have h1 := congrFun h 1
    rw [cross3_apply_1] at h1
    norm_num at h1
    exact Real.pi_ne_zero h1
  · show cross3 ((1 : Matrix (Fin 3) (Fin 3) ℝ).mulVec ![(1 : ℝ), 0, 0])
      ((1 : Matrix (Fin 3) (Fin 3) ℝ).mulVec ![(0 : ℝ), 1, 0]) ≠ 0
    rw [Matrix.one_mulVec, Matrix.one_mulVec]
    intro h
    have h2 := congrFun h 2
    rw [cross3_apply_2] at h2
    norm_num at h2

/-! ## Claim C10: scale invariance of the triad and of U -/

lemma cross3_smul_smul (s t : ℝ) (w1 w2 : Fin 3 → ℝ) :
    cross3 (s • w1) (t • w2) = fun i => (s * t) * cross3 w1 w2 i := by
  funext i
  fin_cases i <;> simp [Pi.smul_apply, smul_eq_mul] <;> ring

lemma norm3_smul (s : ℝ) (hs : 0 ≤ s) (v : Fin 3 → ℝ) :
    norm3 (s • v) = s * norm3 v := by
  rw [show s • v = fun i => s * v i from funext fun i => by simp, norm3_scale,
    abs_of_nonneg hs]

lemma get_T_mat_smul (s t : ℝ) (hs : 0 < s) (ht : 0 < t) (w1 w2 : Fin 3 → ℝ) :
    get_T_mat (s • w1) (t • w2) = get_T_mat w1 w2 := by
  have hn1 : norm3 (s • w1) = s * norm3 w1 := norm3_smul s hs.le w1
  have hcr : cross3 (s • w1) (t • w2) = fun i => (s * t) * cross3 w1 w2 i :=
    cross3_smul_smul s t w1 w2
  have hncr : norm3 (cross3 (s • w1) (t • w2)) = (s * t) * norm3 (cross3 w1 w2) := by
    rw [hcr, norm3_scale, abs_of_pos (mul_pos hs ht)]
  have hcol0 : (fun k => (s • w1) k / norm3 (s • w1)) = fun k => w1 k / norm3 w1 := by
    funext k
    rw [hn1]
    show s * w1 k / (s * norm3 w1) = w1 k / norm3 w1
    exact mul_div_mul_left _ _ hs.ne'
  have hcol2 : (fun k => cross3 (s • w1) (t • w2) k / norm3 (cross3 (s • w1) (t • w2)))
      = fun k => cross3 w1 w2 k / norm3 (cross3 w1 w2) := by
    funext k
    rw [hncr, hcr]
    show (s * t) * cross3 w1 w2 k / ((s * t) * norm3 (cross3 w1 w2))
      = cross3 w1 w2 k / norm3 (cross3 w1 w2)
    exact mul_div_mul_left _ _ (mul_pos hs ht).ne'
  have lhs_eq : get_T_mat (s • w1) (t • w2) = Matrix.of fun i j =>
      ![fun k => (s • w1) k / norm3 (s • w1),
        cross3 (fun k => cross3 (s • w1) (t • w2) k / norm3 (cross3 (s • w1) (t • w2)))
          (fun k => (s • w1) k / norm3 (s • w1)),
        fun k => cross3 (s • w1) (t • w2) k / norm3 (cross3 (s • w1) (t • w2))] j i := rfl
  rw [lhs_eq, hcol0, hcol2]
  rfl

/-- Claim C10: `get_T_mat` is invariant under positive rescaling of either
input, and consequently the `U` produced by `get_U` is unchanged when the
assigned reciprocal vectors are positively rescaled (it depends only on
directions). -/
theorem C10_scale_invariance (s t : ℝ) (hs : 0 < s) (ht : 0 < t)
    (v1 v2 : Fin 3 → ℝ) (hn1 : norm3 v1 ≠ 0) (hn2 : norm3 v2 ≠ 0)
    (hc : cross3 v1 v2 ≠ 0) :
    get_T_mat (s • v1) (t • v2) = get_T_mat v1 v2 ∧
    ∀ (p1 p2 : ℝ × ℝ × ℝ × ℝ) (h1 h2 : Fin 3 → ℝ)
      (Bm : Matrix (Fin 3) (Fin 3) ℝ) (lam' : ℝ),
      get_U p1 (s • h1) p2 (t • h2) Bm lam' = get_U p1 h1 p2 h2 Bm lam' := by
  refine ⟨get_T_mat_smul s t hs ht v1 v2, ?_⟩
  intro p1 p2 h1 h2 Bm lam'
  show get_T_mat _ _ * (get_T_mat (Bm.mulVec (s • h1)) (Bm.mulVec (t • h2))).transpose
    = get_T_mat _ _ * (get_T_mat (Bm.mulVec h1) (Bm.mulVec h2)).transpose
  rw [Matrix.mulVec_smul, Matrix.mulVec_smul, get_T_mat_smul s t hs ht]

/-- Witness for C10 at the concrete inputs `s = t = 2`, `v1 = (1,0,0)`,
`v2 = (0,1,0)`. -/
theorem C10_witness :
    get_T_mat ((2 : ℝ) • ![(1 : ℝ), 0, 0]) ((2 : ℝ) • ![(0 : ℝ), 1, 0])
      = get_T_mat ![(1 : ℝ), 0, 0] ![(0 : ℝ), 1, 0] :=
  (C10_scale_invariance 2 2 (by norm_num) (by norm_num) ![(1 : ℝ), 0, 0] ![(0 : ℝ), 1, 0]
    (by rw [norm3]; norm_num)
    (by rw [norm3]; norm_num)
    (by
      intro h
      have h2 := congrFun h 2
      rw [cross3_apply_2] at h2
      norm_num at h2)).1

/-! ## Claim C8: when the unit-cell computation fails -/

lemma cosd_135 : cos (135 : ℝ) = -(Real.sqrt 2 / 2) := by
  rw [cos, show (135 : ℝ) * (Real.pi / 180) = Real.pi - Real.pi / 4 by ring,
    Real.cos_pi_sub, Real.cos_pi_div_four]

/-- Claim C8 (counterexample): the cell `a = b = c = 1`,
`alpha = beta = gamma = 135` has an invertible but non-positive-definite
metric tensor, and the reciprocal-cell computation does NOT fail on it: it
returns a result (with square roots of negative numbers taken downstream —
NaN in floating point), contradicting the claim that the computation fails
whenever `M` is not positive definite. -/
theorem C8_counterexample :
    ¬ PosDef3 (metricM 1 1 1 135 135 135) ∧
    (reciprocalCell 1 1 1 135 135 135).isSome = true := by
  have hs2 : Real.sqrt 2 ^ 2 = 2 := Real.sq_sqrt (by norm_num)
  have hs2gt : 1 < Real.sqrt 2 := by nlinarith [Real.sqrt_nonneg 2]
  constructor
  · intro hPD
    have hv : (![1, 1, 1] : Fin 3 → ℝ) ≠ 0 := by
      intro h
      have h0 := congrFun h 0
      norm_num at h0
    have hq := hPD ![1, 1, 1] hv
    rw [show dot3 ![1, 1, 1] ((metricM 1 1 1 135 135 135).mulVec ![1, 1, 1])
        = 3 + 6 * cos 135 by
      simp [dot3, Matrix.mulVec, Matrix.dotProduct, Fin.sum_univ_three, metricM,
        Matrix.vecHead, Matrix.vecTail]
      ring] at hq
    rw [cosd_135] at hq
    nlinarith
  · have hdet : (metricM 1 1 1 135 135 135).det ≠ 0 := by
      rw [show (metricM 1 1 1 135 135 135).det
          = 1 - 3 * cos 135 ^ 2 + 2 * cos 135 ^ 3 by
        rw [Matrix.det_fin_three]
        simp [metricM, Matrix.vecHead, Matrix.vecTail]
        ring]
      rw [cosd_135]
      intro h
      nlinarith
    simp only [reciprocalCell, inv3, if_neg hdet, Option.map_some]
    rfl

/-- Claim C8 (amended): the unit-cell computation fails exactly when the
metric tensor `M` is singular — the failure is the matrix-inversion error (in
numpy, `LinAlgError`), there is no dedicated `DegenerateCellError`, and an
invertible non-positive-definite `M` does not fail.  In particular the cell
with `alpha = beta = gamma = 0` makes `M` singular for all lengths, so it
always fails. -/
theorem C8_fails_iff_singular (a' b' c' : ℝ) :
    (metricM a' b' c' 0 0 0).det = 0 ∧ reciprocalCell a' b' c' 0 0 0 = none ∧
    ∀ al be ga : ℝ,
      (reciprocalCell a' b' c' al be ga = none ↔ (metricM a' b' c' al be ga).det = 0) := by
  have hdet0 : (metricM a' b' c' 0 0 0).det = 0 := by
    rw [Matrix.det_fin_three]
    simp [metricM, Matrix.vecHead, Matrix.vecTail]
    ring
  refine ⟨hdet0, ?_, ?_⟩
  · simp [reciprocalCell, inv3, hdet0]
  · intro al be ga
    by_cases h : (metricM a' b' c' al be ga).det = 0
    · simp [reciprocalCell, inv3, h]
    · simp [reciprocalCell, inv3, h]

/-! ## Claim C4: the reciprocal-cell computation is an involution -/

lemma metricM_00 (a' b' c' al be ga : ℝ) : metricM a' b' c' al be ga 0 0 = a' ^ 2 := rfl

lemma metricM_01 (a' b' c' al be ga : ℝ) :
    metricM a' b' c' al be ga 0 1 = a' * b' * cos ga := rfl

lemma metricM_02 (a' b' c' al be ga : ℝ) :
    metricM a' b' c' al be ga 0 2 = a' * c' * cos be := rfl

lemma metricM_10 (a' b' c' al be ga : ℝ) :
    metricM a' b' c' al be ga 1 0 = a' * b' * cos ga := rfl

lemma metricM_11 (a' b' c' al be ga : ℝ) : metricM a' b' c' al be ga 1 1 = b' ^ 2 := rfl

lemma metricM_12 (a' b' c' al be ga : ℝ) :
    metricM a' b' c' al be ga 1 2 = b' * c' * cos al := rfl

lemma metricM_20 (a' b' c' al be ga : ℝ) :
    metricM a' b' c' al be ga 2 0 = a' * c' * cos be := rfl

lemma metricM_21 (a' b' c' al be ga : ℝ) :
    metricM a' b' c' al be ga 2 1 = b' * c' * cos al := rfl

lemma metricM_22 (a' b' c' al be ga : ℝ) : metricM a' b' c' al be ga 2 2 = c' ^ 2 := rfl

lemma metricM_symm (a' b' c' al be ga : ℝ) :
    (metricM a' b' c' al be ga).transpose = metricM a' b' c' al be ga := by
  have e : ∀ i j : Fin 3,
      (metricM a' b' c' al be ga).transpose i j = metricM a' b' c' al be ga i j := by
    intro i j
    rw [Matrix.transpose_apply]
    fin_cases i <;> fin_cases j <;>
      simp [metricM, Matrix.vecHead, Matrix.vecTail]
  ext i j
  exact e i j

lemma dot3_mulVec_expand (A : Matrix (Fin 3) (Fin 3) ℝ) (v : Fin 3 → ℝ) :
    dot3 v (A.mulVec v)
      = A 0 0 * v 0 ^ 2 + A 1 1 * v 1 ^ 2 + A 2 2 * v 2 ^ 2
        + (A 0 1 + A 1 0) * (v 0 * v 1) + (A 0 2 + A 2 0) * (v 0 * v 2)
        + (A 1 2 + A 2 1) * (v 1 * v 2) := by
  simp [dot3, Matrix.mulVec, Matrix.dotProduct, Fin.sum_univ_three]
  ring

lemma dot3_mulVec_left (A : Matrix (Fin 3) (Fin 3) ℝ) (u v : Fin 3 → ℝ) :
    dot3 (A.mulVec u) v = dot3 u (A.transpose.mulVec v) := by
  simp [dot3, Matrix.mulVec, Matrix.dotProduct, Matrix.transpose_apply, Fin.sum_univ_three]
  ring

lemma basis0_ne_zero : (![1, 0, 0] : Fin 3 → ℝ) ≠ 0 := by
  intro h
  have h0 := congrFun h 0
  norm_num at h0

lemma basis1_ne_zero : (![0, 1, 0] : Fin 3 → ℝ) ≠ 0 := by
  intro h
  have h0 := congrFun h 1
  norm_num at h0

lemma basis2_ne_zero : (![0, 0, 1] : Fin 3 → ℝ) ≠ 0 := by
  intro h
  have h0 := congrFun h 2
  norm_num at h0

lemma posdef3_diag00 {A : Matrix (Fin 3) (Fin 3) ℝ} (hA : PosDef3 A) : 0 < A 0 0 := by
  have h := hA ![1, 0, 0] basis0_ne_zero
  rw [dot3_mulVec_expand] at h
  norm_num at h
  exact h

lemma posdef3_diag11 {A : Matrix (Fin 3) (Fin 3) ℝ} (hA : PosDef3 A) : 0 < A 1 1 := by
  have h := hA ![0, 1, 0] basis1_ne_zero
  rw [dot3_mulVec_expand] at h
  norm_num at h
  exact h

lemma posdef3_diag22 {A : Matrix (Fin 3) (Fin 3) ℝ} (hA : PosDef3 A) : 0 < A 2 2 := by
  have h := hA ![0, 0, 1] basis2_ne_zero
  rw [dot3_mulVec_expand] at h
  norm_num at h
  exact h

lemma posdef3_cs01 {A : Matrix (Fin 3) (Fin 3) ℝ} (hA : PosDef3 A)
    (hsym : A 1 0 = A 0 1) : A 0 1 ^ 2 < A 0 0 * A 1 1 := by
  have h00 := posdef3_diag00 hA
  have hv : (![A 0 1, -(A 0 0), 0] : Fin 3 → ℝ) ≠ 0 := by
    intro h
    have h1 := congrFun h 1
    norm_num at h1
    exact h00.ne' h1
  have h := hA ![A 0 1, -(A 0 0), 0] hv
  rw [dot3_mulVec_expand] at h
  norm_num at h
  rw [hsym] at h
  have key : 0 < A 0 0 * (A 0 0 * A 1 1 - A 0 1 ^ 2) := by nlinarith [h]
  by_contra hcon
  push_neg at hcon
  nlinarith [mul_nonneg h00.le (by linarith : (0:ℝ) ≤ A 0 1 ^ 2 - A 0 0 * A 1 1)]

lemma posdef3_cs02 {A : Matrix (Fin 3) (Fin 3) ℝ} (hA : PosDef3 A)
    (hsym : A 2 0 = A 0 2) : A 0 2 ^ 2 < A 0 0 * A 2 2 := by
  have h00 := posdef3_diag00 hA
  have hv : (![A 0 2, 0, -(A 0 0)] : Fin 3 → ℝ) ≠ 0 := by
    intro h
    have h1 := congrFun h 2
    norm_num at h1
    exact h00.ne' h1
  have h := hA ![A 0 2, 0, -(A 0 0)] hv
  rw [dot3_mulVec_expand] at h
  norm_num at h
  rw [hsym] at h
  have key : 0 < A 0 0 * (A 0 0 * A 2 2 - A 0 2 ^ 2) := by nlinarith [h]
  by_contra hcon
  push_neg at hcon
  nlinarith [mul_nonneg h00.le (by linarith : (0:ℝ) ≤ A 0 2 ^ 2 - A 0 0 * A 2 2)]

lemma posdef3_cs12 {A : Matrix (Fin 3) (Fin 3) ℝ} (hA : PosDef3 A)
    (hsym : A 2 1 = A 1 2) : A 1 2 ^ 2 < A 1 1 * A 2 2 := by
  have h11 := posdef3_diag11 hA
  have hv : (![0, A 1 2, -(A 1 1)] : Fin 3 → ℝ) ≠ 0 := by
    intro h
    have h1 := congrFun h 2
    norm_num at h1
    exact h11.ne' h1
  have h := hA ![0, A 1 2, -(A 1 1)] hv
  rw [dot3_mulVec_expand] at h
  norm_num at h
  rw [hsym] at h
  have key : 0 < A 1 1 * (A 1 1 * A 2 2 - A 1 2 ^ 2) := by nlinarith [h]
  by_contra hcon
  push_neg at hcon
  nlinarith [mul_nonneg h11.le (by linarith : (0:ℝ) ≤ A 1 2 ^ 2 - A 1 1 * A 2 2)]

lemma posdef3_det_ne_zero {A : Matrix (Fin 3) (Fin 3) ℝ} (hA : PosDef3 A) :
    A.det ≠ 0 := by
  intro h
  obtain ⟨v, hv, hMv⟩ := Matrix.exists_mulVec_eq_zero_iff.mpr h
  have hq := hA v hv
  rw [hMv] at hq
  simp [dot3] at hq

lemma posdef3_inv {A : Matrix (Fin 3) (Fin 3) ℝ} (hA : PosDef3 A)
    (hsym : A.transpose = A) : PosDef3 A⁻¹ := by
  have hdet := posdef3_det_ne_zero hA
  have hunit : IsUnit A.det := isUnit_iff_ne_zero.mpr hdet
  intro v hv
  have hvw : A.mulVec (A⁻¹.mulVec v) = v := by
    rw [Matrix.mulVec_mulVec, Matrix.mul_nonsing_inv _ hunit, Matrix.one_mulVec]
  obtain ⟨w, rfl⟩ : ∃ w, v = A.mulVec w := ⟨A⁻¹.mulVec v, hvw.symm⟩
  have hw : A⁻¹.mulVec (A.mulVec w) = w := by
    rw [Matrix.mulVec_mulVec, Matrix.nonsing_inv_mul _ hunit, Matrix.one_mulVec]
  have hw0 : w ≠ 0 := by
    intro h0
    rw [h0, Matrix.mulVec_zero] at hv
    exact hv rfl
  rw [hw, dot3_mulVec_left, hsym]
  exact hA w hw0

lemma posdef3_smul {A : Matrix (Fin 3) (Fin 3) ℝ} (k : ℝ) (hk : 0 < k)
    (hA : PosDef3 A) : PosDef3 (k • A) := by
  intro v hv
  have h : dot3 v ((k • A).mulVec v) = k * dot3 v (A.mulVec v) := by
    simp [dot3, Matrix.mulVec, Matrix.dotProduct, Fin.sum_univ_three,
      Matrix.smul_apply, smul_eq_mul]
    ring
  rw [h]
  exact mul_pos hk (hA v hv)

lemma cosd_arccosd {t : ℝ} (h1 : -1 ≤ t) (h2 : t ≤ 1) : cos (arccos t) = t := by
  rw [cos, arccos,
    show Real.arccos t * (180 / Real.pi) * (Real.pi / 180) = Real.arccos t by
      field_simp]
  exact Real.cos_arccos h1 h2

lemma arccosd_cosd {x : ℝ} (h1 : 0 ≤ x) (h2 : x ≤ 180) : arccos (cos x) = x := by
  have hπ := Real.pi_pos
  rw [cos, arccos, Real.arccos_cos (by positivity) (by nlinarith)]
  field_simp

lemma reciprocalCell_eval (a' b' c' al be ga : ℝ)
    (hdet : (metricM a' b' c' al be ga).det ≠ 0) :
    reciprocalCell a' b' c' al be ga = some
      (Real.sqrt ((((2 * Real.pi) ^ 2) • (metricM a' b' c' al be ga)⁻¹) 0 0),
       Real.sqrt ((((2 * Real.pi) ^ 2) • (metricM a' b' c' al be ga)⁻¹) 1 1),
       Real.sqrt ((((2 * Real.pi) ^ 2) • (metricM a' b' c' al be ga)⁻¹) 2 2),
       arccos ((((2 * Real.pi) ^ 2) • (metricM a' b' c' al be ga)⁻¹) 1 2
         / (Real.sqrt ((((2 * Real.pi) ^ 2) • (metricM a' b' c' al be ga)⁻¹) 1 1)
            * Real.sqrt ((((2 * Real.pi) ^ 2) • (metricM a' b' c' al be ga)⁻¹) 2 2))),
       arccos ((((2 * Real.pi) ^ 2) • (metricM a' b' c' al be ga)⁻¹) 0 2
         / (Real.sqrt ((((2 * Real.pi) ^ 2) • (metricM a' b' c' al be ga)⁻¹) 0 0)
            * Real.sqrt ((((2 * Real.pi) ^ 2) • (metricM a' b' c' al be ga)⁻¹) 2 2))),
       arccos ((((2 * Real.pi) ^ 2) • (metricM a' b' c' al be ga)⁻¹) 0 1
         / (Real.sqrt ((((2 * Real.pi) ^ 2) • (metricM a' b' c' al be ga)⁻¹) 0 0)
            * Real.sqrt ((((2 * Real.pi) ^ 2) • (metricM a' b' c' al be ga)⁻¹) 1 1)))) := by
  simp only [reciprocalCell, inv3, if_neg hdet]
  rfl

lemma div_bounds_of_sq_lt (x : ℝ) {p : ℝ} (hp : 0 < p) (h : x ^ 2 < p ^ 2) :
    -1 ≤ x / p ∧ x / p ≤ 1 := by
  constructor
  · rw [le_div_iff hp]
    nlinarith
  · rw [div_le_one hp]
    nlinarith

/-- Claim C4: for every valid unit cell (positive lengths, angles in
`(0, 180)`, positive-definite metric tensor), the reciprocal-cell computation
succeeds, and applying the same computation to the derived reciprocal
constants returns the original six cell constants exactly. -/
theorem C4_reciprocal_round_trip (a' b' c' al be ga : ℝ)
    (ha : 0 < a') (hb : 0 < b') (hc : 0 < c')
    (hal : 0 < al ∧ al < 180) (hbe : 0 < be ∧ be < 180) (hga : 0 < ga ∧ ga < 180)
    (hPD : PosDef3 (metricM a' b' c' al be ga)) :
    ∃ r : ℝ × ℝ × ℝ × ℝ × ℝ × ℝ,
      reciprocalCell a' b' c' al be ga = some r ∧
      reciprocalCell r.1 r.2.1 r.2.2.1 r.2.2.2.1 r.2.2.2.2.1 r.2.2.2.2.2
        = some (a', b', c', al, be, ga) := by
  have hdet : (metricM a' b' c' al be ga).det ≠ 0 := posdef3_det_ne_zero hPD
  have hunit : IsUnit (metricM a' b' c' al be ga).det := isUnit_iff_ne_zero.mpr hdet
  have hsym := metricM_symm a' b' c' al be ga
  have hPDi : PosDef3 (metricM a' b' c' al be ga)⁻¹ := posdef3_inv hPD hsym
  have hk : (0 : ℝ) < (2 * Real.pi) ^ 2 := by positivity
  have hPDv : PosDef3 (((2 * Real.pi) ^ 2) • (metricM a' b' c' al be ga)⁻¹) :=
    posdef3_smul _ hk hPDi
  have hsymi : ((metricM a' b' c' al be ga)⁻¹).transpose
      = (metricM a' b' c' al be ga)⁻¹ := by
    rw [Matrix.transpose_nonsing_inv, hsym]
  set Mv := ((2 * Real.pi) ^ 2) • (metricM a' b' c' al be ga)⁻¹ with hMvdef
  have hsymv : Mv.transpose = Mv := by
    rw [hMvdef, Matrix.transpose_smul, hsymi]
  have hs10 : Mv 1 0 = Mv 0 1 := by
    have h := congrFun (congrFun hsymv 1) 0
    rw [Matrix.transpose_apply] at h
    exact h.symm
  have hs20 : Mv 2 0 = Mv 0 2 := by
    have h := congrFun (congrFun hsymv 2) 0
    rw [Matrix.transpose_apply] at h
    exact h.symm
  have hs21 : Mv 2 1 = Mv 1 2 := by
    have h := congrFun (congrFun hsymv 2) 1
    rw [Matrix.transpose_apply] at h
    exact h.symm
  have d0 : 0 < Mv 0 0 := posdef3_diag00 hPDv
  have d1 : 0 < Mv 1 1 := posdef3_diag11 hPDv
  have d2 : 0 < Mv 2 2 := posdef3_diag22 hPDv
  have hr1pos : 0 < Real.sqrt (Mv 0 0) := Real.sqrt_pos.mpr d0
  have hr2pos : 0 < Real.sqrt (Mv 1 1) := Real.sqrt_pos.mpr d1
  have hr3pos : 0 < Real.sqrt (Mv 2 2) := Real.sqrt_pos.mpr d2
  have hr1sq : Real.sqrt (Mv 0 0) ^ 2 = Mv 0 0 := Real.sq_sqrt d0.le
  have hr2sq : Real.sqrt (Mv 1 1) ^ 2 = Mv 1 1 := Real.sq_sqrt d1.le
  have hr3sq : Real.sqrt (Mv 2 2) ^ 2 = Mv 2 2 := Real.sq_sqrt d2.le
  have hcs01 : Mv 0 1 ^ 2 < Mv 0 0 * Mv 1 1 := posdef3_cs01 hPDv hs10
  have hcs02 : Mv 0 2 ^ 2 < Mv 0 0 * Mv 2 2 := posdef3_cs02 hPDv hs20
  have hcs12 : Mv 1 2 ^ 2 < Mv 1 1 * Mv 2 2 := posdef3_cs12 hPDv hs21
  have hb01 := div_bounds_of_sq_lt (Mv 0 1) (mul_pos hr1pos hr2pos)
    (by rw [mul_pow, hr1sq, hr2sq]; exact hcs01)
  have hb02 := div_bounds_of_sq_lt (Mv 0 2) (mul_pos hr1pos hr3pos)
    (by rw [mul_pow, hr1sq, hr3sq]; exact hcs02)
  have hb12 := div_bounds_of_sq_lt (Mv 1 2) (mul_pos hr2pos hr3pos)
    (by rw [mul_pow, hr2sq, hr3sq]; exact hcs12)
  have happ1 := reciprocalCell_eval a' b' c' al be ga hdet
  rw [← hMvdef] at happ1
  refine ⟨_, happ1, ?_⟩
  show reciprocalCell (Real.sqrt (Mv 0 0)) (Real.sqrt (Mv 1 1)) (Real.sqrt (Mv 2 2))
      (arccos (Mv 1 2 / (Real.sqrt (Mv 1 1) * Real.sqrt (Mv 2 2))))
      (arccos (Mv 0 2 / (Real.sqrt (Mv 0 0) * Real.sqrt (Mv 2 2))))
      (arccos (Mv 0 1 / (Real.sqrt (Mv 0 0) * Real.sqrt (Mv 1 1))))
    = some (a', b', c', al, be, ga)
  have hM2 : metricM (Real.sqrt (Mv 0 0)) (Real.sqrt (Mv 1 1)) (Real.sqrt (Mv 2 2))
      (arccos (Mv 1 2 / (Real.sqrt (Mv 1 1) * Real.sqrt (Mv 2 2))))
      (arccos (Mv 0 2 / (Real.sqrt (Mv 0 0) * Real.sqrt (Mv 2 2))))
      (arccos (Mv 0 1 / (Real.sqrt (Mv 0 0) * Real.sqrt (Mv 1 1)))) = Mv := by
    have e00 : metricM (Real.sqrt (Mv 0 0)) (Real.sqrt (Mv 1 1)) (Real.sqrt (Mv 2 2))
        (arccos (Mv 1 2 / (Real.sqrt (Mv 1 1) * Real.sqrt (Mv 2 2))))
        (arccos (Mv 0 2 / (Real.sqrt (Mv 0 0) * Real.sqrt (Mv 2 2))))
        (arccos (Mv 0 1 / (Real.sqrt (Mv 0 0) * Real.sqrt (Mv 1 1)))) 0 0 = Mv 0 0 := by
      rw [metricM_00, hr1sq]
    have e11 : metricM (Real.sqrt (Mv 0 0)) (Real.sqrt (Mv 1 1)) (Real.sqrt (Mv 2 2))
        (arccos (Mv 1 2 / (Real.sqrt (Mv 1 1) * Real.sqrt (Mv 2 2))))
        (arccos (Mv 0 2 / (Real.sqrt (Mv 0 0) * Real.sqrt (Mv 2 2))))
        (arccos (Mv 0 1 / (Real.sqrt (Mv 0 0) * Real.sqrt (Mv 1 1)))) 1 1 = Mv 1 1 := by
      rw [metricM_11, hr2sq]
    have e22 : metricM (Real.sqrt (Mv 0 0)) (Real.sqrt (Mv 1 1)) (Real.sqrt (Mv 2 2))
        (arccos (Mv 1 2 / (Real.sqrt (Mv 1 1) * Real.sqrt (Mv 2 2))))
        (arccos (Mv 0 2 / (Real.sqrt (Mv 0 0) * Real.sqrt (Mv 2 2))))
        (arccos (Mv 0 1 / (Real.sqrt (Mv 0 0) * Real.sqrt (Mv 1 1)))) 2 2 = Mv 2 2 := by
      rw [metricM_22, hr3sq]
    have e01 : metricM (Real.sqrt (Mv 0 0)) (Real.sqrt (Mv 1 1)) (Real.sqrt (Mv 2 2))
        (arccos (Mv 1 2 / (Real.sqrt (Mv 1 1) * Real.sqrt (Mv 2 2))))
        (arccos (Mv 0 2 / (Real.sqrt (Mv 0 0) * Real.sqrt (Mv 2 2))))
        (arccos (Mv 0 1 / (Real.sqrt (Mv 0 0) * Real.sqrt (Mv 1 1)))) 0 1 = Mv 0 1 := by
      rw [metricM_01, cosd_arccosd hb01.1 hb01.2, mul_comm, div_mul_cancel₀]
      exact (mul_pos hr1pos hr2pos).ne'
    have e10 : metricM (Real.sqrt (Mv 0 0)) (Real.sqrt (Mv 1 1)) (Real.sqrt (Mv 2 2))
        (arccos (Mv 1 2 / (Real.sqrt (Mv 1 1) * Real.sqrt (Mv 2 2))))
        (arccos (Mv 0 2 / (Real.sqrt (Mv 0 0) * Real.sqrt (Mv 2 2))))
        (arccos (Mv 0 1 / (Real.sqrt (Mv 0 0) * Real.sqrt (Mv 1 1)))) 1 0 = Mv 1 0 := by
      rw [metricM_10, cosd_arccosd hb01.1 hb01.2, mul_comm, div_mul_cancel₀, hs10]
      exact (mul_pos hr1pos hr2pos).ne'
    have e02 : metricM (Real.sqrt (Mv 0 0)) (Real.sqrt (Mv 1 1)) (Real.sqrt (Mv 2 2))
        (arccos (Mv 1 2 / (Real.sqrt (Mv 1 1) * Real.sqrt (Mv 2 2))))
        (arccos (Mv 0 2 / (Real.sqrt (Mv 0 0) * Real.sqrt (Mv 2 2))))
        (arccos (Mv 0 1 / (Real.sqrt (Mv 0 0) * Real.sqrt (Mv 1 1)))) 0 2 = Mv 0 2 := by
      rw [metricM_02, cosd_arccosd hb02.1 hb02.2, mul_comm, div_mul_cancel₀]
      exact (mul_pos hr1pos hr3pos).ne'
    have e20 : metricM (Real.sqrt (Mv 0 0)) (Real.sqrt (Mv 1 1)) (Real.sqrt (Mv 2 2))
        (arccos (Mv 1 2 / (Real.sqrt (Mv 1 1) * Real.sqrt (Mv 2 2))))
        (arccos (Mv 0 2 / (Real.sqrt (Mv 0 0) * Real.sqrt (Mv 2 2))))
        (arccos (Mv 0 1 / (Real.sqrt (Mv 0 0) * Real.sqrt (Mv 1 1)))) 2 0 = Mv 2 0 := by
      rw [metricM_20, cosd_arccosd hb02.1 hb02.2, mul_comm, div_mul_cancel₀, hs20]
      exact (mul_pos hr1pos hr3pos).ne'
    have e12 : metricM (Real.sqrt (Mv 0 0)) (Real.sqrt (Mv 1 1)) (Real.sqrt (Mv 2 2))
        (arccos (Mv 1 2 / (Real.sqrt (Mv 1 1) * Real.sqrt (Mv 2 2))))
        (arccos (Mv 0 2 / (Real.sqrt (Mv 0 0) * Real.sqrt (Mv 2 2))))
        (arccos (Mv 0 1 / (Real.sqrt (Mv 0 0) * Real.sqrt (Mv 1 1)))) 1 2 = Mv 1 2 := by
      rw [metricM_12, cosd_arccosd hb12.1 hb12.2, mul_comm, div_mul_cancel₀]
      exact (mul_pos hr2pos hr3pos).ne'
    have e21 : metricM (Real.sqrt (Mv 0 0)) (Real.sqrt (Mv 1 1)) (Real.sqrt (Mv 2 2))
        (arccos (Mv 1 2 / (Real.sqrt (Mv 1 1) * Real.sqrt (Mv 2 2))))
        (arccos (Mv 0 2 / (Real.sqrt (Mv 0 0) * Real.sqrt (Mv 2 2))))
        (arccos (Mv 0 1 / (Real.sqrt (Mv 0 0) * Real.sqrt (Mv 1 1)))) 2 1 = Mv 2 1 := by
      rw [metricM_21, cosd_arccosd hb12.1 hb12.2, mul_comm, div_mul_cancel₀, hs21]
      exact (mul_pos hr2pos hr3pos).ne'
    ext i j
    fin_cases i <;> fin_cases j
    · exact e00
    · exact e01
    · exact e02
    · exact e10
    · exact e11
    · exact e12
    · exact e20
    · exact e21
    · exact e22
  have hdet2 : (metricM (Real.sqrt (Mv 0 0)) (Real.sqrt (Mv 1 1)) (Real.sqrt (Mv 2 2))
      (arccos (Mv 1 2 / (Real.sqrt (Mv 1 1) * Real.sqrt (Mv 2 2))))
      (arccos (Mv 0 2 / (Real.sqrt (Mv 0 0) * Real.sqrt (Mv 2 2))))
      (arccos (Mv 0 1 / (Real.sqrt (Mv 0 0) * Real.sqrt (Mv 1 1))))).det ≠ 0 := by
    rw [hM2, hMvdef, Matrix.det_smul]
    have hi : (metricM a' b' c' al be ga)⁻¹.det ≠ 0 := by
      rw [Matrix.det_nonsing_inv, Ring.inverse_eq_inv]
      exact inv_ne_zero hdet
    exact mul_ne_zero (by positivity) hi
  have happ2 := reciprocalCell_eval _ _ _ _ _ _ hdet2
  have hMv_inv : Mv⁻¹ = ((2 * Real.pi) ^ 2)⁻¹ • metricM a' b' c' al be ga := by
    apply Matrix.inv_eq_right_inv
    rw [hMvdef, Matrix.smul_mul, Matrix.mul_smul,
      Matrix.nonsing_inv_mul _ hunit, smul_smul, mul_inv_cancel₀ hk.ne', one_smul]
  have hback : ((2 * Real.pi) ^ 2) • (metricM (Real.sqrt (Mv 0 0)) (Real.sqrt (Mv 1 1))
      (Real.sqrt (Mv 2 2))
      (arccos (Mv 1 2 / (Real.sqrt (Mv 1 1) * Real.sqrt (Mv 2 2))))
      (arccos (Mv 0 2 / (Real.sqrt (Mv 0 0) * Real.sqrt (Mv 2 2))))
      (arccos (Mv 0 1 / (Real.sqrt (Mv 0 0) * Real.sqrt (Mv 1 1)))))⁻¹
      = metricM a' b' c' al be ga := by
    rw [hM2, hMv_inv, smul_smul, mul_inv_cancel₀ hk.ne', one_smul]
  rw [hback] at happ2
  rw [happ2]
  have hsa : Real.sqrt (metricM a' b' c' al be ga 0 0) = a' := by
    rw [metricM_00]
    exact Real.sqrt_sq ha.le
  have hsb : Real.sqrt (metricM a' b' c' al be ga 1 1) = b' := by
    rw [metricM_11]
    exact Real.sqrt_sq hb.le
  have hsc : Real.sqrt (metricM a' b' c' al be ga 2 2) = c' := by
    rw [metricM_22]
    exact Real.sqrt_sq hc.le
  rw [hsa, hsb, hsc]
  have hαv : arccos (metricM a' b' c' al be ga 1 2 / (b' * c')) = al := by
    rw [metricM_12, mul_div_cancel_left₀ _ (mul_pos hb hc).ne']
    exact arccosd_cosd hal.1.le hal.2.le
  have hβv : arccos (metricM a' b' c' al be ga 0 2 / (a' * c')) = be := by
    rw [metricM_02, mul_div_cancel_left₀ _ (mul_pos ha hc).ne']
    exact arccosd_cosd hbe.1.le hbe.2.le
  have hγv : arccos (metricM a' b' c' al be ga 0 1 / (a' * b')) = ga := by
    rw [metricM_01, mul_div_cancel_left₀ _ (mul_pos ha hb).ne']
    exact arccosd_cosd hga.1.le hga.2.le
  rw [hαv, hβv, hγv]

/-- Witness for C4 at the concrete cubic cell `(1, 1, 1, 90, 90, 90)`. -/
theorem C4_witness :
    ∃ r : ℝ × ℝ × ℝ × ℝ × ℝ × ℝ,
      reciprocalCell 1 1 1 90 90 90 = some r ∧
      reciprocalCell r.1 r.2.1 r.2.2.1 r.2.2.2.1 r.2.2.2.2.1 r.2.2.2.2.2
        = some (1, 1, 1, 90, 90, 90) := by
  apply C4_reciprocal_round_trip 1 1 1 90 90 90 (by norm_num) (by norm_num) (by norm_num)
    ⟨by norm_num, by norm_num⟩ ⟨by norm_num, by norm_num⟩ ⟨by norm_num, by norm_num⟩
  intro v hv
  rw [dot3_mulVec_expand, metricM_00, metricM_11, metricM_22, metricM_01, metricM_10,
    metricM_02, metricM_20, metricM_12, metricM_21, cosd_90]
  have h := sq3_pos hv
  nlinarith [h]

/-! ## Toolkit: entries of 3x3 matrix literals, products and matrix-vector
products, used to evaluate the notebook's concrete pipeline -/

lemma vec3_0 (x y z : ℝ) : ![x, y, z] 0 = x := rfl

lemma vec3_1 (x y z : ℝ) : ![x, y, z] 1 = y := rfl

lemma vec3_2 (x y z : ℝ) : ![x, y, z] 2 = z := rfl

lemma mat3_00 (x00 x01 x02 x10 x11 x12 x20 x21 x22 : ℝ) :
    !![x00, x01, x02; x10, x11, x12; x20, x21, x22] 0 0 = x00 := rfl

lemma mat3_01 (x00 x01 x02 x10 x11 x12 x20 x21 x22 : ℝ) :
    !![x00, x01, x02; x10, x11, x12; x20, x21, x22] 0 1 = x01 := rfl

lemma mat3_02 (x00 x01 x02 x10 x11 x12 x20 x21 x22 : ℝ) :
    !![x00, x01, x02; x10, x11, x12; x20, x21, x22] 0 2 = x02 := rfl

lemma mat3_10 (x00 x01 x02 x10 x11 x12 x20 x21 x22 : ℝ) :
    !![x00, x01, x02; x10, x11, x12; x20, x21, x22] 1 0 = x10 := rfl

lemma mat3_11 (x00 x01 x02 x10 x11 x12 x20 x21 x22 : ℝ) :
    !![x00, x01, x02; x10, x11, x12; x20, x21, x22] 1 1 = x11 := rfl

lemma mat3_12 (x00 x01 x02 x10 x11 x12 x20 x21 x22 : ℝ) :
    !![x00, x01, x02; x10, x11, x12; x20, x21, x22] 1 2 = x12 := rfl

lemma mat3_20 (x00 x01 x02 x10 x11 x12 x20 x21 x22 : ℝ) :
    !![x00, x01, x02; x10, x11, x12; x20, x21, x22] 2 0 = x20 := rfl

lemma mat3_21 (x00 x01 x02 x10 x11 x12 x20 x21 x22 : ℝ) :
    !![x00, x01, x02; x10, x11, x12; x20, x21, x22] 2 1 = x21 := rfl

lemma mat3_22 (x00 x01 x02 x10 x11 x12 x20 x21 x22 : ℝ) :
    !![x00, x01, x02; x10, x11, x12; x20, x21, x22] 2 2 = x22 := rfl

lemma mul3_apply (A Bm : Matrix (Fin 3) (Fin 3) ℝ) (i j : Fin 3) :
    (A * Bm) i j = A i 0 * Bm 0 j + A i 1 * Bm 1 j + A i 2 * Bm 2 j := by
  rw [Matrix.mul_apply, Fin.sum_univ_three]

lemma mulVec3_apply (A : Matrix (Fin 3) (Fin 3) ℝ) (v : Fin 3 → ℝ) (i : Fin 3) :
    A.mulVec v i = A i 0 * v 0 + A i 1 * v 1 + A i 2 * v 2 := by
  simp [Matrix.mulVec, Matrix.dotProduct, Fin.sum_univ_three]

lemma transpose3 (x00 x01 x02 x10 x11 x12 x20 x21 x22 : ℝ) :
    (!![x00, x01, x02; x10, x11, x12; x20, x21, x22] :
        Matrix (Fin 3) (Fin 3) ℝ).transpose
      = !![x00, x10, x20; x01, x11, x21; x02, x12, x22] := by
  have e : ∀ i j : Fin 3,
      (!![x00, x01, x02; x10, x11, x12; x20, x21, x22] :
        Matrix (Fin 3) (Fin 3) ℝ).transpose i j
        = !![x00, x10, x20; x01, x11, x21; x02, x12, x22] i j := by
    intro i j
    rw [Matrix.transpose_apply]
    fin_cases i <;> fin_cases j <;> simp [Matrix.vecHead, Matrix.vecTail]
  ext i j
  exact e i j

/-! ## The example cell: basic positivity and trigonometry facts -/

lemma a_pos : (0 : ℝ) < a := by norm_num [a]

lemma b_pos : (0 : ℝ) < b := by norm_num [b]

lemma c_pos : (0 : ℝ) < c := by norm_num [c]

lemma lam_pos : (0 : ℝ) < lam := by norm_num [lam]

lemma cos_alpha_eq : cos alpha = 0 := by
  rw [show alpha = (90 : ℝ) from rfl, cosd_90]

lemma cos_gamma_eq : cos gamma = 0 := by
  rw [show gamma = (90 : ℝ) from rfl, cosd_90]

lemma sinbeta_pos : 0 < sin beta := by
  apply sind_pos <;> norm_num [beta]

lemma pyth_beta : sin beta ^ 2 + cos beta ^ 2 = 1 := sind_sq_add_cosd_sq beta

lemma s22_pos : 0 < sin (22.379 : ℝ) := by
  apply sind_pos <;> norm_num

lemma s27_pos : 0 < sin (27.90925 : ℝ) := by
  apply sind_pos <;> norm_num

lemma s13_pos : 0 < sin (13.17375 : ℝ) := by
  apply sind_pos <;> norm_num

/-! ## The example metric tensor and its inverse -/

lemma M_eq : M = !![a ^ 2, 0, a * c * cos beta;
                    0, b ^ 2, 0;
                    a * c * cos beta, 0, c ^ 2] := by
  have e00 : M 0 0 = a ^ 2 := metricM_00 a b c alpha beta gamma
  have e01 : M 0 1 = 0 := by
    rw [show M 0 1 = a * b * cos gamma from metricM_01 a b c alpha beta gamma,
      cos_gamma_eq, mul_zero]
  have e02 : M 0 2 = a * c * cos beta := metricM_02 a b c alpha beta gamma
  have e10 : M 1 0 = 0 := by
    rw [show M 1 0 = a * b * cos gamma from metricM_10 a b c alpha beta gamma,
      cos_gamma_eq, mul_zero]
  have e11 : M 1 1 = b ^ 2 := metricM_11 a b c alpha beta gamma
  have e12 : M 1 2 = 0 := by
    rw [show M 1 2 = b * c * cos alpha from metricM_12 a b c alpha beta gamma,
      cos_alpha_eq, mul_zero]
  have e20 : M 2 0 = a * c * cos beta := metricM_20 a b c alpha beta gamma
  have e21 : M 2 1 = 0 := by
    rw [show M 2 1 = b * c * cos alpha from metricM_21 a b c alpha beta gamma,
      cos_alpha_eq, mul_zero]
  have e22 : M 2 2 = c ^ 2 := metricM_22 a b c alpha beta gamma
  ext i j
  fin_cases i <;> fin_cases j
  · exact e00
  · exact e01
  · exact e02
  · exact e10
  · exact e11
  · exact e12
  · exact e20
  · exact e21
  · exact e22

lemma M_inv_eq : M⁻¹ = !![1 / (a ^ 2 * sin beta ^ 2), 0,
                           -cos beta / (a * c * sin beta ^ 2);
                           0, 1 / b ^ 2, 0;
                           -cos beta / (a * c * sin beta ^ 2), 0,
                           1 / (c ^ 2 * sin beta ^ 2)] := by
  apply Matrix.inv_eq_right_inv
  rw [M_eq, Matrix.mul_fin_three, Matrix.one_fin_three]
  have ha := a_pos.ne'
  have hb := b_pos.ne'
  have hc := c_pos.ne'
  have hs := sinbeta_pos.ne'
  have e : ∀ i j : Fin 3,
      (!![a ^ 2 * (1 / (a ^ 2 * sin beta ^ 2)) + 0 * 0
            + a * c * cos beta * (-cos beta / (a * c * sin beta ^ 2)),
          a ^ 2 * 0 + 0 * (1 / b ^ 2) + a * c * cos beta * 0,
          a ^ 2 * (-cos beta / (a * c * sin beta ^ 2)) + 0 * 0
            + a * c * cos beta * (1 / (c ^ 2 * sin beta ^ 2));
          0 * (1 / (a ^ 2 * sin beta ^ 2)) + b ^ 2 * 0
            + 0 * (-cos beta / (a * c * sin beta ^ 2)),
          0 * 0 + b ^ 2 * (1 / b ^ 2) + 0 * 0,
          0 * (-cos beta / (a * c * sin beta ^ 2)) + b ^ 2 * 0
            + 0 * (1 / (c ^ 2 * sin beta ^ 2));
          a * c * cos beta * (1 / (a ^ 2 * sin beta ^ 2)) + 0 * 0
            + c ^ 2 * (-cos beta / (a * c * sin beta ^ 2)),
          a * c * cos beta * 0 + 0 * (1 / b ^ 2) + c ^ 2 * 0,
          a * c * cos beta * (-cos beta / (a * c * sin beta ^ 2)) + 0 * 0
            + c ^ 2 * (1 / (c ^ 2 * sin beta ^ 2))] : Matrix (Fin 3) (Fin 3) ℝ) i j
        = (!![1, 0, 0; 0, 1, 0; 0, 0, 1] : Matrix (Fin 3) (Fin 3) ℝ) i j := by
    intro i j
    have hs2 : sin beta ^ 2 = 1 - cos beta ^ 2 := by linarith [pyth_beta]
    have h1cb : 1 - cos beta ^ 2 ≠ 0 := by
      rw [← hs2]
      positivity
    fin_cases i <;> fin_cases j <;>
      simp [Matrix.vecHead, Matrix.vecTail] <;>
      (try rw [hs2]) <;>
      field_simp <;>
      ring
  ext i j
  exact e i j

/-! ## Entries of Minv and the reciprocal constants of the example cell -/

lemma Minv_00 : Minv 0 0 = (2 * Real.pi) ^ 2 * (1 / (a ^ 2 * sin beta ^ 2)) := by
  rw [show Minv = ((2 * Real.pi) ^ 2) • M⁻¹ from rfl, M_inv_eq, Matrix.smul_apply,
    mat3_00, smul_eq_mul]

lemma Minv_11 : Minv 1 1 = (2 * Real.pi) ^ 2 * (1 / b ^ 2) := by
  rw [show Minv = ((2 * Real.pi) ^ 2) • M⁻¹ from rfl, M_inv_eq, Matrix.smul_apply,
    mat3_11, smul_eq_mul]

lemma Minv_22 : Minv 2 2 = (2 * Real.pi) ^ 2 * (1 / (c ^ 2 * sin beta ^ 2)) := by
  rw [show Minv = ((2 * Real.pi) ^ 2) • M⁻¹ from rfl, M_inv_eq, Matrix.smul_apply,
    mat3_22, smul_eq_mul]

lemma Minv_01 : Minv 0 1 = 0 := by
  rw [show Minv = ((2 * Real.pi) ^ 2) • M⁻¹ from rfl, M_inv_eq, Matrix.smul_apply,
    mat3_01, smul_eq_mul, mul_zero]

lemma Minv_12 : Minv 1 2 = 0 := by
  rw [show Minv = ((2 * Real.pi) ^ 2) • M⁻¹ from rfl, M_inv_eq, Matrix.smul_apply,
    mat3_12, smul_eq_mul, mul_zero]

lemma Minv_02 : Minv 0 2
    = (2 * Real.pi) ^ 2 * (-cos beta / (a * c * sin beta ^ 2)) := by
  rw [show Minv = ((2 * Real.pi) ^ 2) • M⁻¹ from rfl, M_inv_eq, Matrix.smul_apply,
    mat3_02, smul_eq_mul]

lemma a_star_eq : a_star = 2 * Real.pi / (a * sin beta) := by
  rw [show a_star = Real.sqrt (Minv 0 0) from rfl, Minv_00,
    show (2 * Real.pi) ^ 2 * (1 / (a ^ 2 * sin beta ^ 2))
      = (2 * Real.pi / (a * sin beta)) ^ 2 by
        field_simp
        ring]
  exact Real.sqrt_sq (div_nonneg (by positivity) (mul_pos a_pos sinbeta_pos).le)

lemma b_star_eq : b_star = 2 * Real.pi / b := by
  rw [show b_star = Real.sqrt (Minv 1 1) from rfl, Minv_11,
    show (2 * Real.pi) ^ 2 * (1 / b ^ 2) = (2 * Real.pi / b) ^ 2 by
      field_simp]
  exact Real.sqrt_sq (div_nonneg (by positivity) b_pos.le)

lemma c_star_eq : c_star = 2 * Real.pi / (c * sin beta) := by
  rw [show c_star = Real.sqrt (Minv 2 2) from rfl, Minv_22,
    show (2 * Real.pi) ^ 2 * (1 / (c ^ 2 * sin beta ^ 2))
      = (2 * Real.pi / (c * sin beta)) ^ 2 by
        field_simp
        ring]
  exact Real.sqrt_sq (div_nonneg (by positivity) (mul_pos c_pos sinbeta_pos).le)

lemma sind_arccosd (t : ℝ) : sin (arccos t) = Real.sqrt (1 - t ^ 2) := by
  rw [sin, arccos,
    show Real.arccos t * (180 / Real.pi) * (Real.pi / 180) = Real.arccos t by
      field_simp]
  exact Real.sin_arccos t

lemma cosd_le_one (x : ℝ) : cos x ≤ 1 := Real.cos_le_one _

lemma neg_one_le_cosd (x : ℝ) : -1 ≤ cos x := Real.neg_one_le_cos _

lemma quot_gamma_star : Minv 0 1 / (a_star * b_star) = 0 := by
  rw [Minv_01, zero_div]

lemma cos_gamma_star_eq : cos gamma_star = 0 := by
  rw [show gamma_star = arccos (Minv 0 1 / (a_star * b_star)) from rfl, quot_gamma_star]
  rw [cosd_arccosd (by norm_num) (by norm_num)]

lemma sin_gamma_star_eq : sin gamma_star = 1 := by
  rw [show gamma_star = arccos (Minv 0 1 / (a_star * b_star)) from rfl, quot_gamma_star,
    sind_arccosd]
  norm_num

lemma quot_beta_star : Minv 0 2 / (a_star * c_star) = -cos beta := by
  rw [Minv_02, a_star_eq, c_star_eq]
  have hπ := Real.pi_ne_zero
  field_simp [a_pos.ne', c_pos.ne', sinbeta_pos.ne']
  ring

lemma cos_beta_star_eq : cos beta_star = -cos beta := by
  rw [show beta_star = arccos (Minv 0 2 / (a_star * c_star)) from rfl, quot_beta_star]
  exact cosd_arccosd (by nlinarith [cosd_le_one beta]) (by nlinarith [neg_one_le_cosd beta])

lemma sin_beta_star_eq : sin beta_star = sin beta := by
  rw [show beta_star = arccos (Minv 0 2 / (a_star * c_star)) from rfl, quot_beta_star,
    sind_arccosd,
    show 1 - (-cos beta) ^ 2 = sin beta ^ 2 by linear_combination (-1 : ℝ) * pyth_beta]
  exact Real.sqrt_sq sinbeta_pos.le

lemma B_eq : B = !![2 * Real.pi / (a * sin beta), 0,
                     -(2 * Real.pi * cos beta) / (c * sin beta);
                     0, 2 * Real.pi / b, 0;
                     0, 0, 2 * Real.pi / c] := by
  have e00 : B 0 0 = 2 * Real.pi / (a * sin beta) := a_star_eq
  have e01 : B 0 1 = 0 := by
    show b_star * cos gamma_star = 0
    rw [cos_gamma_star_eq, mul_zero]
  have e02 : B 0 2 = -(2 * Real.pi * cos beta) / (c * sin beta) := by
    show c_star * cos beta_star = _
    rw [c_star_eq, cos_beta_star_eq]
    ring
  have e10 : B 1 0 = 0 := rfl
  have e11 : B 1 1 = 2 * Real.pi / b := by
    show b_star * sin gamma_star = _
    rw [b_star_eq, sin_gamma_star_eq, mul_one]
  have e12 : B 1 2 = 0 := by
    show -c_star * sin beta_star * cos alpha = 0
    rw [cos_alpha_eq, mul_zero]
  have e20 : B 2 0 = 0 := rfl
  have e21 : B 2 1 = 0 := rfl
  have e22 : B 2 2 = 2 * Real.pi / c := rfl
  ext i j
  fin_cases i <;> fin_cases j
  · exact e00
  · exact e01
  · exact e02
  · exact e10
  · exact e11
  · exact e12
  · exact e20
  · exact e21
  · exact e22

/-! ## The two measured scattering vectors of the example -/

lemma q1_eq : angles2cart 44.7580 22.3790 90.0000 0 lam
    = ![0, 0, 4 * Real.pi * sin 22.379 / lam] := by
  have e0 : angles2cart 44.7580 22.3790 90.0000 0 lam 0 = 0 := by
    norm_num [angles2cart, q_carterian_unit_vector]
  have e1 : angles2cart 44.7580 22.3790 90.0000 0 lam 1 = 0 := by
    norm_num [angles2cart, q_carterian_unit_vector]
  have e2 : angles2cart 44.7580 22.3790 90.0000 0 lam 2
      = 4 * Real.pi * sin 22.379 / lam := by
    norm_num [angles2cart, q_carterian_unit_vector]
  funext i
  fin_cases i
  · exact e0
  · exact e1
  · exact e2

lemma q2_eq : angles2cart 55.8185 14.7355 90.0000 0 lam
    = ![0, -(4 * Real.pi * sin 27.90925 * sin 13.17375 / lam),
        4 * Real.pi * sin 27.90925 * cos 13.17375 / lam] := by
  have e0 : angles2cart 55.8185 14.7355 90.0000 0 lam 0 = 0 := by
    norm_num [angles2cart, q_carterian_unit_vector]
  have e1 : angles2cart 55.8185 14.7355 90.0000 0 lam 1
      = -(4 * Real.pi * sin 27.90925 * sin 13.17375 / lam) := by
    norm_num [angles2cart, q_carterian_unit_vector]
    ring
  have e2 : angles2cart 55.8185 14.7355 90.0000 0 lam 2
      = 4 * Real.pi * sin 27.90925 * cos 13.17375 / lam := by
    norm_num [angles2cart, q_carterian_unit_vector]
  funext i
  fin_cases i
  · exact e0
  · exact e1
  · exact e2

lemma K1_pos : (0 : ℝ) < 4 * Real.pi * sin 22.379 / lam := by
  apply div_pos _ lam_pos
  have := Real.pi_pos
  nlinarith [s22_pos]

lemma K2s_pos : (0 : ℝ) < 4 * Real.pi * sin 27.90925 * sin 13.17375 / lam :=
  div_pos (mul_pos (mul_pos (by positivity) s27_pos) s13_pos) lam_pos

/-! ## The measured-side triad of the example -/

lemma Tpos_eq : get_T_mat ![0, 0, 4 * Real.pi * sin 22.379 / lam]
    ![0, -(4 * Real.pi * sin 27.90925 * sin 13.17375 / lam),
      4 * Real.pi * sin 27.90925 * cos 13.17375 / lam]
    = !![0, 0, 1; 0, -1, 0; 1, 0, 0] := by
  have hn1 : norm3 ![0, 0, 4 * Real.pi * sin 22.379 / lam]
      = 4 * Real.pi * sin 22.379 / lam := by
    rw [norm3, vec3_0, vec3_1, vec3_2,
      show (0 : ℝ) ^ 2 + (0 : ℝ) ^ 2 + (4 * Real.pi * sin 22.379 / lam) ^ 2
        = (4 * Real.pi * sin 22.379 / lam) ^ 2 by ring]
    exact Real.sqrt_sq K1_pos.le
  have hcr : cross3 ![0, 0, 4 * Real.pi * sin 22.379 / lam]
      ![0, -(4 * Real.pi * sin 27.90925 * sin 13.17375 / lam),
        4 * Real.pi * sin 27.90925 * cos 13.17375 / lam]
      = ![4 * Real.pi * sin 22.379 / lam
            * (4 * Real.pi * sin 27.90925 * sin 13.17375 / lam), 0, 0] := by
    have c0 : cross3 ![0, 0, 4 * Real.pi * sin 22.379 / lam]
        ![0, -(4 * Real.pi * sin 27.90925 * sin 13.17375 / lam),
          4 * Real.pi * sin 27.90925 * cos 13.17375 / lam] 0
        = 4 * Real.pi * sin 22.379 / lam
            * (4 * Real.pi * sin 27.90925 * sin 13.17375 / lam) := by
      rw [cross3_apply_0, vec3_1, vec3_2, vec3_1, vec3_2]
      ring
    have c1 : cross3 ![0, 0, 4 * Real.pi * sin 22.379 / lam]
        ![0, -(4 * Real.pi * sin 27.90925 * sin 13.17375 / lam),
          4 * Real.pi * sin 27.90925 * cos 13.17375 / lam] 1 = 0 := by
      rw [cross3_apply_1, vec3_0, vec3_2, vec3_0, vec3_2]
      ring
    have c2 : cross3 ![0, 0, 4 * Real.pi * sin 22.379 / lam]
        ![0, -(4 * Real.pi * sin 27.90925 * sin 13.17375 / lam),
          4 * Real.pi * sin 27.90925 * cos 13.17375 / lam] 2 = 0 := by
      rw [cross3_apply_2, vec3_0, vec3_1, vec3_0, vec3_1]
      ring
    funext i
    fin_cases i
    · exact c0
    · exact c1
    · exact c2
  have hWpos : (0 : ℝ) < 4 * Real.pi * sin 22.379 / lam
      * (4 * Real.pi * sin 27.90925 * sin 13.17375 / lam) := mul_pos K1_pos K2s_pos
  have hnc : norm3 ![4 * Real.pi * sin 22.379 / lam
      * (4 * Real.pi * sin 27.90925 * sin 13.17375 / lam), 0, 0]
      = 4 * Real.pi * sin 22.379 / lam
          * (4 * Real.pi * sin 27.90925 * sin 13.17375 / lam) := by
    rw [norm3, vec3_0, vec3_1, vec3_2,
      show (4 * Real.pi * sin 22.379 / lam
          * (4 * Real.pi * sin 27.90925 * sin 13.17375 / lam)) ^ 2 + (0 : ℝ) ^ 2
          + (0 : ℝ) ^ 2
        = (4 * Real.pi * sin 22.379 / lam
            * (4 * Real.pi * sin 27.90925 * sin 13.17375 / lam)) ^ 2 by ring]
    exact Real.sqrt_sq hWpos.le
  have ht1 : (fun k => (![0, 0, 4 * Real.pi * sin 22.379 / lam] : Fin 3 → ℝ) k
      / norm3 ![0, 0, 4 * Real.pi * sin 22.379 / lam]) = ![0, 0, 1] := by
    have p0 : (![0, 0, 4 * Real.pi * sin 22.379 / lam] : Fin 3 → ℝ) 0
        / norm3 ![0, 0, 4 * Real.pi * sin 22.379 / lam] = 0 := by
      rw [hn1, vec3_0, zero_div]
    have p1 : (![0, 0, 4 * Real.pi * sin 22.379 / lam] : Fin 3 → ℝ) 1
        / norm3 ![0, 0, 4 * Real.pi * sin 22.379 / lam] = 0 := by
      rw [hn1, vec3_1, zero_div]
    have p2 : (![0, 0, 4 * Real.pi * sin 22.379 / lam] : Fin 3 → ℝ) 2
        / norm3 ![0, 0, 4 * Real.pi * sin 22.379 / lam] = 1 := by
      rw [hn1, vec3_2]
      exact div_self K1_pos.ne'
    funext k
    fin_cases k
    · exact p0
    · exact p1
    · exact p2
  have ht3 : (fun k => cross3 ![0, 0, 4 * Real.pi * sin 22.379 / lam]
      ![0, -(4 * Real.pi * sin 27.90925 * sin 13.17375 / lam),
        4 * Real.pi * sin 27.90925 * cos 13.17375 / lam] k
      / norm3 (cross3 ![0, 0, 4 * Real.pi * sin 22.379 / lam]
        ![0, -(4 * Real.pi * sin 27.90925 * sin 13.17375 / lam),
          4 * Real.pi * sin 27.90925 * cos 13.17375 / lam])) = ![1, 0, 0] := by
    have p0 : cross3 ![0, 0, 4 * Real.pi * sin 22.379 / lam]
        ![0, -(4 * Real.pi * sin 27.90925 * sin 13.17375 / lam),
          4 * Real.pi * sin 27.90925 * cos 13.17375 / lam] 0
        / norm3 (cross3 ![0, 0, 4 * Real.pi * sin 22.379 / lam]
          ![0, -(4 * Real.pi * sin 27.90925 * sin 13.17375 / lam),
            4 * Real.pi * sin 27.90925 * cos 13.17375 / lam]) = 1 := by
      rw [hcr, hnc, vec3_0]
      exact div_self hWpos.ne'
    have p1 : cross3 ![0, 0, 4 * Real.pi * sin 22.379 / lam]
        ![0, -(4 * Real.pi * sin 27.90925 * sin 13.17375 / lam),
          4 * Real.pi * sin 27.90925 * cos 13.17375 / lam] 1
        / norm3 (cross3 ![0, 0, 4 * Real.pi * sin 22.379 / lam]
          ![0, -(4 * Real.pi * sin 27.90925 * sin 13.17375 / lam),
            4 * Real.pi * sin 27.90925 * cos 13.17375 / lam]) = 0 := by
      rw [hcr, hnc, vec3_1, zero_div]
    have p2 : cross3 ![0, 0, 4 * Real.pi * sin 22.379 / lam]
        ![0, -(4 * Real.pi * sin 27.90925 * sin 13.17375 / lam),
          4 * Real.pi * sin 27.90925 * cos 13.17375 / lam] 2
        / norm3 (cross3 ![0, 0, 4 * Real.pi * sin 22.379 / lam]
          ![0, -(4 * Real.pi * sin 27.90925 * sin 13.17375 / lam),
            4 * Real.pi * sin 27.90925 * cos 13.17375 / lam]) = 0 := by
      rw [hcr, hnc, vec3_2, zero_div]
    funext k
    fin_cases k
    · exact p0
    · exact p1
    · exact p2
  have ht2 : cross3 (![1, 0, 0] : Fin 3 → ℝ) ![0, 0, 1] = ![0, -1, 0] := by
    have p0 : cross3 (![1, 0, 0] : Fin 3 → ℝ) ![0, 0, 1] 0 = 0 := by
      rw [cross3_apply_0]; norm_num
    have p1 : cross3 (![1, 0, 0] : Fin 3 → ℝ) ![0, 0, 1] 1 = -1 := by
      rw [cross3_apply_1]; norm_num
    have p2 : cross3 (![1, 0, 0] : Fin 3 → ℝ) ![0, 0, 1] 2 = 0 := by
      rw [cross3_apply_2]; norm_num
    funext k
    fin_cases k
    · exact p0
    · exact p1
    · exact p2
  have ecol0 : ∀ i, get_T_mat ![0, 0, 4 * Real.pi * sin 22.379 / lam]
      ![0, -(4 * Real.pi * sin 27.90925 * sin 13.17375 / lam),
        4 * Real.pi * sin 27.90925 * cos 13.17375 / lam] i 0
      = (![0, 0, 1] : Fin 3 → ℝ) i := by
    intro i
    rw [get_T_mat_col0]
    exact congrFun ht1 i
  have ecol1 : ∀ i, get_T_mat ![0, 0, 4 * Real.pi * sin 22.379 / lam]
      ![0, -(4 * Real.pi * sin 27.90925 * sin 13.17375 / lam),
        4 * Real.pi * sin 27.90925 * cos 13.17375 / lam] i 1
      = (![0, -1, 0] : Fin 3 → ℝ) i := by
    intro i
    rw [get_T_mat_col1, ht3, ht1, ht2]
  have ecol2 : ∀ i, get_T_mat ![0, 0, 4 * Real.pi * sin 22.379 / lam]
      ![0, -(4 * Real.pi * sin 27.90925 * sin 13.17375 / lam),
        4 * Real.pi * sin 27.90925 * cos 13.17375 / lam] i 2
      = (![1, 0, 0] : Fin 3 → ℝ) i := by
    intro i
    rw [get_T_mat_col2]
    exact congrFun ht3 i
  ext i j
  fin_cases i <;> fin_cases j
  · exact ecol0 0
  · exact ecol1 0
  · exact ecol2 0
  · exact ecol0 1
  · exact ecol1 1
  · exact ecol2 1
  · exact ecol0 2
  · exact ecol1 2
  · exact ecol2 2

/-! ## The two assigned Cartesian vectors of the example -/

lemma c1_eq : B.mulVec assignment_1
    = ![-(8 * Real.pi * cos beta) / (c * sin beta), 0, 8 * Real.pi / c] := by
  have e0 : B.mulVec assignment_1 0 = -(8 * Real.pi * cos beta) / (c * sin beta) := by
    rw [mulVec3_apply, B_eq, mat3_00, mat3_01, mat3_02,
      show assignment_1 0 = (0 : ℝ) from rfl,
      show assignment_1 1 = (0 : ℝ) from rfl,
      show assignment_1 2 = (4 : ℝ) from rfl]
    ring
  have e1 : B.mulVec assignment_1 1 = 0 := by
    rw [mulVec3_apply, B_eq, mat3_10, mat3_11, mat3_12,
      show assignment_1 0 = (0 : ℝ) from rfl,
      show assignment_1 1 = (0 : ℝ) from rfl,
      show assignment_1 2 = (4 : ℝ) from rfl]
    ring
  have e2 : B.mulVec assignment_1 2 = 8 * Real.pi / c := by
    rw [mulVec3_apply, B_eq, mat3_20, mat3_21, mat3_22,
      show assignment_1 0 = (0 : ℝ) from rfl,
      show assignment_1 1 = (0 : ℝ) from rfl,
      show assignment_1 2 = (4 : ℝ) from rfl]
    ring
  funext i
  fin_cases i
  · exact e0
  · exact e1
  · exact e2

lemma c2_eq : B.mulVec assignment_2
    = ![-(2 * Real.pi) / (a * sin beta) - (10 * Real.pi * cos beta) / (c * sin beta),
        0, 10 * Real.pi / c] := by
  have e0 : B.mulVec assignment_2 0
      = -(2 * Real.pi) / (a * sin beta) - (10 * Real.pi * cos beta) / (c * sin beta) := by
    rw [mulVec3_apply, B_eq, mat3_00, mat3_01, mat3_02,
      show assignment_2 0 = (-1 : ℝ) from rfl,
      show assignment_2 1 = (0 : ℝ) from rfl,
      show assignment_2 2 = (5 : ℝ) from rfl]
    ring
  have e1 : B.mulVec assignment_2 1 = 0 := by
    rw [mulVec3_apply, B_eq, mat3_10, mat3_11, mat3_12,
      show assignment_2 0 = (-1 : ℝ) from rfl,
      show assignment_2 1 = (0 : ℝ) from rfl,
      show assignment_2 2 = (5 : ℝ) from rfl]
    ring
  have e2 : B.mulVec assignment_2 2 = 10 * Real.pi / c := by
    rw [mulVec3_apply, B_eq, mat3_20, mat3_21, mat3_22,
      show assignment_2 0 = (-1 : ℝ) from rfl,
      show assignment_2 1 = (0 : ℝ) from rfl,
      show assignment_2 2 = (5 : ℝ) from rfl]
    ring
  funext i
  fin_cases i
  · exact e0
  · exact e1
  · exact e2

/-! ## The assignment-side triad of the example -/

lemma nc1_pos : (0 : ℝ) < 8 * Real.pi / (c * sin beta) :=
  div_pos (by positivity) (mul_pos c_pos sinbeta_pos)

lemma wA_pos : (0 : ℝ) < 16 * Real.pi ^ 2 / (a * c * sin beta) :=
  div_pos (by positivity) (mul_pos (mul_pos a_pos c_pos) sinbeta_pos)

lemma Tass_eq : get_T_mat
    ![-(8 * Real.pi * cos beta) / (c * sin beta), 0, 8 * Real.pi / c]
    ![-(2 * Real.pi) / (a * sin beta) - (10 * Real.pi * cos beta) / (c * sin beta),
      0, 10 * Real.pi / c]
    = !![-cos beta, -sin beta, 0; 0, 0, -1; sin beta, -cos beta, 0] := by
  have hnc1 : norm3 ![-(8 * Real.pi * cos beta) / (c * sin beta), 0, 8 * Real.pi / c]
      = 8 * Real.pi / (c * sin beta) := by
    rw [norm3, vec3_0, vec3_1, vec3_2,
      show (-(8 * Real.pi * cos beta) / (c * sin beta)) ^ 2 + (0 : ℝ) ^ 2
          + (8 * Real.pi / c) ^ 2 = (8 * Real.pi / (c * sin beta)) ^ 2 by
        field_simp [c_pos.ne', sinbeta_pos.ne']
        linear_combination (64 * Real.pi ^ 2 * c ^ 4 * sin beta ^ 2) * pyth_beta]
    exact Real.sqrt_sq nc1_pos.le
  have hcrA : cross3 ![-(8 * Real.pi * cos beta) / (c * sin beta), 0, 8 * Real.pi / c]
      ![-(2 * Real.pi) / (a * sin beta) - (10 * Real.pi * cos beta) / (c * sin beta),
        0, 10 * Real.pi / c]
      = ![0, -(16 * Real.pi ^ 2 / (a * c * sin beta)), 0] := by
    have p0 : cross3 ![-(8 * Real.pi * cos beta) / (c * sin beta), 0, 8 * Real.pi / c]
        ![-(2 * Real.pi) / (a * sin beta) - (10 * Real.pi * cos beta) / (c * sin beta),
          0, 10 * Real.pi / c] 0 = 0 := by
      rw [cross3_apply_0, vec3_1, vec3_2, vec3_1, vec3_2]
      ring
    have p1 : cross3 ![-(8 * Real.pi * cos beta) / (c * sin beta), 0, 8 * Real.pi / c]
        ![-(2 * Real.pi) / (a * sin beta) - (10 * Real.pi * cos beta) / (c * sin beta),
          0, 10 * Real.pi / c] 1 = -(16 * Real.pi ^ 2 / (a * c * sin beta)) := by
      rw [cross3_apply_1, vec3_0, vec3_2, vec3_0, vec3_2]
      have hA : c * (a * sin beta * (c * sin beta)) ≠ 0 :=
        mul_ne_zero c_pos.ne' (mul_ne_zero (mul_ne_zero a_pos.ne' sinbeta_pos.ne')
          (mul_ne_zero c_pos.ne' sinbeta_pos.ne'))
      have hB : c * sin beta * c ≠ 0 :=
        mul_ne_zero (mul_ne_zero c_pos.ne' sinbeta_pos.ne') c_pos.ne'
      have hD : a * c * sin beta ≠ 0 :=
        mul_ne_zero (mul_ne_zero a_pos.ne' c_pos.ne') sinbeta_pos.ne'
      rw [div_sub_div _ _ (mul_ne_zero a_pos.ne' sinbeta_pos.ne')
          (mul_ne_zero c_pos.ne' sinbeta_pos.ne'),
        div_mul_div_comm, div_mul_div_comm,
        div_sub_div _ _ hA hB,
        show -(16 * Real.pi ^ 2 / (a * c * sin beta))
          = -(16 * Real.pi ^ 2) / (a * c * sin beta) by rw [neg_div],
        div_eq_div_iff (mul_ne_zero hA hB) hD]
      ring
    have p2 : cross3 ![-(8 * Real.pi * cos beta) / (c * sin beta), 0, 8 * Real.pi / c]
        ![-(2 * Real.pi) / (a * sin beta) - (10 * Real.pi * cos beta) / (c * sin beta),
          0, 10 * Real.pi / c] 2 = 0 := by
      rw [cross3_apply_2, vec3_0, vec3_1, vec3_0, vec3_1]
      ring
    funext i
    fin_cases i
    · exact p0
    · exact p1
    · exact p2
  have hncrA : norm3 ![0, -(16 * Real.pi ^ 2 / (a * c * sin beta)), 0]
      = 16 * Real.pi ^ 2 / (a * c * sin beta) := by
    rw [norm3, vec3_0, vec3_1, vec3_2,
      show (0 : ℝ) ^ 2 + (-(16 * Real.pi ^ 2 / (a * c * sin beta))) ^ 2 + (0 : ℝ) ^ 2
        = (16 * Real.pi ^ 2 / (a * c * sin beta)) ^ 2 by ring]
    exact Real.sqrt_sq wA_pos.le
  have ht1A : (fun k =>
      (![-(8 * Real.pi * cos beta) / (c * sin beta), 0, 8 * Real.pi / c] : Fin 3 → ℝ) k
      / norm3 ![-(8 * Real.pi * cos beta) / (c * sin beta), 0, 8 * Real.pi / c])
      = ![-cos beta, 0, sin beta] := by
    have p0 : (![-(8 * Real.pi * cos beta) / (c * sin beta), 0,
          8 * Real.pi / c] : Fin 3 → ℝ) 0
        / norm3 ![-(8 * Real.pi * cos beta) / (c * sin beta), 0, 8 * Real.pi / c]
        = -cos beta := by
      rw [hnc1, vec3_0]
      field_simp [c_pos.ne', sinbeta_pos.ne']
      ring
    have p1 : (![-(8 * Real.pi * cos beta) / (c * sin beta), 0,
          8 * Real.pi / c] : Fin 3 → ℝ) 1
        / norm3 ![-(8 * Real.pi * cos beta) / (c * sin beta), 0, 8 * Real.pi / c]
        = 0 := by
      rw [hnc1, vec3_1, zero_div]
    have p2 : (![-(8 * Real.pi * cos beta) / (c * sin beta), 0,
          8 * Real.pi / c] : Fin 3 → ℝ) 2
        / norm3 ![-(8 * Real.pi * cos beta) / (c * sin beta), 0, 8 * Real.pi / c]
        = sin beta := by
      rw [hnc1, vec3_2]
      field_simp [c_pos.ne', sinbeta_pos.ne']
      ring
    funext k
    fin_cases k
    · exact p0
    · exact p1
    · exact p2
  have ht3A : (fun k => cross3
      ![-(8 * Real.pi * cos beta) / (c * sin beta), 0, 8 * Real.pi / c]
      ![-(2 * Real.pi) / (a * sin beta) - (10 * Real.pi * cos beta) / (c * sin beta),
        0, 10 * Real.pi / c] k
      / norm3 (cross3
        ![-(8 * Real.pi * cos beta) / (c * sin beta), 0, 8 * Real.pi / c]
        ![-(2 * Real.pi) / (a * sin beta) - (10 * Real.pi * cos beta) / (c * sin beta),
          0, 10 * Real.pi / c])) = ![0, -1, 0] := by
    have p0 : cross3 ![-(8 * Real.pi * cos beta) / (c * sin beta), 0, 8 * Real.pi / c]
        ![-(2 * Real.pi) / (a * sin beta) - (10 * Real.pi * cos beta) / (c * sin beta),
          0, 10 * Real.pi / c] 0
        / norm3 (cross3 ![-(8 * Real.pi * cos beta) / (c * sin beta), 0, 8 * Real.pi / c]
          ![-(2 * Real.pi) / (a * sin beta)
            - (10 * Real.pi * cos beta) / (c * sin beta), 0, 10 * Real.pi / c]) = 0 := by
      rw [hcrA, hncrA, vec3_0, zero_div]
    have p1 : cross3 ![-(8 * Real.pi * cos beta) / (c * sin beta), 0, 8 * Real.pi / c]
        ![-(2 * Real.pi) / (a * sin beta) - (10 * Real.pi * cos beta) / (c * sin beta),
          0, 10 * Real.pi / c] 1
        / norm3 (cross3 ![-(8 * Real.pi * cos beta) / (c * sin beta), 0, 8 * Real.pi / c]
          ![-(2 * Real.pi) / (a * sin beta)
            - (10 * Real.pi * cos beta) / (c * sin beta), 0, 10 * Real.pi / c]) = -1 := by
      rw [hcrA, hncrA, vec3_1, neg_div]
      rw [div_self wA_pos.ne']
    have p2 : cross3 ![-(8 * Real.pi * cos beta) / (c * sin beta), 0, 8 * Real.pi / c]
        ![-(2 * Real.pi) / (a * sin beta) - (10 * Real.pi * cos beta) / (c * sin beta),
          0, 10 * Real.pi / c] 2
        / norm3 (cross3 ![-(8 * Real.pi * cos beta) / (c * sin beta), 0, 8 * Real.pi / c]
          ![-(2 * Real.pi) / (a * sin beta)
            - (10 * Real.pi * cos beta) / (c * sin beta), 0, 10 * Real.pi / c]) = 0 := by
      rw [hcrA, hncrA, vec3_2, zero_div]
    funext k
    fin_cases k
    · exact p0
    · exact p1
    · exact p2
  have ht2A : cross3 (![0, -1, 0] : Fin 3 → ℝ) ![-cos beta, 0, sin beta]
      = ![-sin beta, 0, -cos beta] := by
    have p0 : cross3 (![0, -1, 0] : Fin 3 → ℝ) ![-cos beta, 0, sin beta] 0
        = -sin beta := by
      rw [cross3_apply_0, vec3_1, vec3_2, vec3_1, vec3_2]
      ring
    have p1 : cross3 (![0, -1, 0] : Fin 3 → ℝ) ![-cos beta, 0, sin beta] 1 = 0 := by
      rw [cross3_apply_1, vec3_0, vec3_2, vec3_0, vec3_2]
      ring
    have p2 : cross3 (![0, -1, 0] : Fin 3 → ℝ) ![-cos beta, 0, sin beta] 2
        = -cos beta := by
      rw [cross3_apply_2, vec3_0, vec3_1, vec3_0, vec3_1]
      ring
    funext k
    fin_cases k
    · exact p0
    · exact p1
    · exact p2
  have ecol0 : ∀ i, get_T_mat
      ![-(8 * Real.pi * cos beta) / (c * sin beta), 0, 8 * Real.pi / c]
      ![-(2 * Real.pi) / (a * sin beta) - (10 * Real.pi * cos beta) / (c * sin beta),
        0, 10 * Real.pi / c] i 0
      = (![-cos beta, 0, sin beta] : Fin 3 → ℝ) i := by
    intro i
    rw [get_T_mat_col0]
    exact congrFun ht1A i
  have ecol1 : ∀ i, get_T_mat
      ![-(8 * Real.pi * cos beta) / (c * sin beta), 0, 8 * Real.pi / c]
      ![-(2 * Real.pi) / (a * sin beta) - (10 * Real.pi * cos beta) / (c * sin beta),
        0, 10 * Real.pi / c] i 1
      = (![-sin beta, 0, -cos beta] : Fin 3 → ℝ) i := by
    intro i
    rw [get_T_mat_col1, ht3A, ht1A, ht2A]
  have ecol2 : ∀ i, get_T_mat
      ![-(8 * Real.pi * cos beta) / (c * sin beta), 0, 8 * Real.pi / c]
      ![-(2 * Real.pi) / (a * sin beta) - (10 * Real.pi * cos beta) / (c * sin beta),
        0, 10 * Real.pi / c] i 2
      = (![0, -1, 0] : Fin 3 → ℝ) i := by
    intro i
    rw [get_T_mat_col2]
    exact congrFun ht3A i
  ext i j
  fin_cases i <;> fin_cases j
  · exact ecol0 0
  · exact ecol1 0
  · exact ecol2 0
  · exact ecol0 1
  · exact ecol1 1
  · exact ecol2 1
  · exact ecol0 2
  · exact ecol1 2
  · exact ecol2 2

/-! ## The orientation matrix, UB and its inverse for the example -/

lemma U_eq : U = !![0, -1, 0; sin beta, 0, cos beta; -cos beta, 0, sin beta] := by
  have hT : U = (!![0, 0, 1; 0, -1, 0; 1, 0, 0] : Matrix (Fin 3) (Fin 3) ℝ)
      * !![-cos beta, 0, sin beta; -sin beta, 0, -cos beta; 0, -1, 0] := by
    show get_T_mat (angles2cart 44.7580 22.3790 90.0000 0 lam)
        (angles2cart 55.8185 14.7355 90.0000 0 lam)
      * (get_T_mat (B.mulVec assignment_1) (B.mulVec assignment_2)).transpose = _
    rw [q1_eq, q2_eq, c1_eq, c2_eq, Tpos_eq, Tass_eq, transpose3]
  rw [hT]
  have e : ∀ i j : Fin 3,
      ((!![0, 0, 1; 0, -1, 0; 1, 0, 0] : Matrix (Fin 3) (Fin 3) ℝ)
        * !![-cos beta, 0, sin beta; -sin beta, 0, -cos beta; 0, -1, 0]) i j
      = (!![0, -1, 0; sin beta, 0, cos beta;
            -cos beta, 0, sin beta] : Matrix (Fin 3) (Fin 3) ℝ) i j := by
    intro i j
    rw [mul3_apply]
    fin_cases i <;> fin_cases j <;>
      simp [Matrix.vecHead, Matrix.vecTail] <;> ring
  ext i j
  exact e i j

lemma UB_eq : UB = !![0, -(2 * Real.pi) / b, 0;
                      2 * Real.pi / a, 0, 0;
                      -(2 * Real.pi * cos beta) / (a * sin beta), 0,
                        2 * Real.pi / (c * sin beta)] := by
  have hstep : UB = (!![0, -1, 0; sin beta, 0, cos beta;
      -cos beta, 0, sin beta] : Matrix (Fin 3) (Fin 3) ℝ)
      * !![2 * Real.pi / (a * sin beta), 0, -(2 * Real.pi * cos beta) / (c * sin beta);
           0, 2 * Real.pi / b, 0;
           0, 0, 2 * Real.pi / c] := by
    show U * B = _
    rw [U_eq, B_eq]
  rw [hstep]
  have e00 : ((!![0, -1, 0; sin beta, 0, cos beta;
      -cos beta, 0, sin beta] : Matrix (Fin 3) (Fin 3) ℝ)
      * !![2 * Real.pi / (a * sin beta), 0, -(2 * Real.pi * cos beta) / (c * sin beta);
           0, 2 * Real.pi / b, 0;
           0, 0, 2 * Real.pi / c]) 0 0 = 0 := by
    rw [mul3_apply, mat3_00, mat3_01, mat3_02, mat3_00, mat3_10, mat3_20]
    ring
  have e01 : ((!![0, -1, 0; sin beta, 0, cos beta;
      -cos beta, 0, sin beta] : Matrix (Fin 3) (Fin 3) ℝ)
      * !![2 * Real.pi / (a * sin beta), 0, -(2 * Real.pi * cos beta) / (c * sin beta);
           0, 2 * Real.pi / b, 0;
           0, 0, 2 * Real.pi / c]) 0 1 = -(2 * Real.pi) / b := by
    rw [mul3_apply, mat3_00, mat3_01, mat3_02, mat3_01, mat3_11, mat3_21]
    ring
  have e02 : ((!![0, -1, 0; sin beta, 0, cos beta;
      -cos beta, 0, sin beta] : Matrix (Fin 3) (Fin 3) ℝ)
      * !![2 * Real.pi / (a * sin beta), 0, -(2 * Real.pi * cos beta) / (c * sin beta);
           0, 2 * Real.pi / b, 0;
           0, 0, 2 * Real.pi / c]) 0 2 = 0 := by
    rw [mul3_apply, mat3_00, mat3_01, mat3_02, mat3_02, mat3_12, mat3_22]
    ring
  have e10 : ((!![0, -1, 0; sin beta, 0, cos beta;
      -cos beta, 0, sin beta] : Matrix (Fin 3) (Fin 3) ℝ)
      * !![2 * Real.pi / (a * sin beta), 0, -(2 * Real.pi * cos beta) / (c * sin beta);
           0, 2 * Real.pi / b, 0;
           0, 0, 2 * Real.pi / c]) 1 0 = 2 * Real.pi / a := by
    rw [mul3_apply, mat3_10, mat3_11, mat3_12, mat3_00, mat3_10, mat3_20]
    field_simp [a_pos.ne', sinbeta_pos.ne']
    ring
  have e11 : ((!![0, -1, 0; sin beta, 0, cos beta;
      -cos beta, 0, sin beta] : Matrix (Fin 3) (Fin 3) ℝ)
      * !![2 * Real.pi / (a * sin beta), 0, -(2 * Real.pi * cos beta) / (c * sin beta);
           0, 2 * Real.pi / b, 0;
           0, 0, 2 * Real.pi / c]) 1 1 = 0 := by
    rw [mul3_apply, mat3_10, mat3_11, mat3_12, mat3_01, mat3_11, mat3_21]
    ring
  have e12 : ((!![0, -1, 0; sin beta, 0, cos beta;
      -cos beta, 0, sin beta] : Matrix (Fin 3) (Fin 3) ℝ)
      * !![2 * Real.pi / (a * sin beta), 0, -(2 * Real.pi * cos beta) / (c * sin beta);
           0, 2 * Real.pi / b, 0;
           0, 0, 2 * Real.pi / c]) 1 2 = 0 := by
    rw [mul3_apply, mat3_10, mat3_11, mat3_12, mat3_02, mat3_12, mat3_22]
    field_simp [c_pos.ne', sinbeta_pos.ne']
    ring
  have e20 : ((!![0, -1, 0; sin beta, 0, cos beta;
      -cos beta, 0, sin beta] : Matrix (Fin 3) (Fin 3) ℝ)
      * !![2 * Real.pi / (a * sin beta), 0, -(2 * Real.pi * cos beta) / (c * sin beta);
           0, 2 * Real.pi / b, 0;
           0, 0, 2 * Real.pi / c]) 2 0
      = -(2 * Real.pi * cos beta) / (a * sin beta) := by
    rw [mul3_apply, mat3_20, mat3_21, mat3_22, mat3_00, mat3_10, mat3_20]
    ring
  have e21 : ((!![0, -1, 0; sin beta, 0, cos beta;
      -cos beta, 0, sin beta] : Matrix (Fin 3) (Fin 3) ℝ)
      * !![2 * Real.pi / (a * sin beta), 0, -(2 * Real.pi * cos beta) / (c * sin beta);
           0, 2 * Real.pi / b, 0;
           0, 0, 2 * Real.pi / c]) 2 1 = 0 := by
    rw [mul3_apply, mat3_20, mat3_21, mat3_22, mat3_01, mat3_11, mat3_21]
    ring
  have e22 : ((!![0, -1, 0; sin beta, 0, cos beta;
      -cos beta, 0, sin beta] : Matrix (Fin 3) (Fin 3) ℝ)
      * !![2 * Real.pi / (a * sin beta), 0, -(2 * Real.pi * cos beta) / (c * sin beta);
           0, 2 * Real.pi / b, 0;
           0, 0, 2 * Real.pi / c]) 2 2 = 2 * Real.pi / (c * sin beta) := by
    rw [mul3_apply, mat3_20, mat3_21, mat3_22, mat3_02, mat3_12, mat3_22]
    field_simp [c_pos.ne', sinbeta_pos.ne']
    linear_combination (2 * Real.pi * c ^ 2 * sin beta) * pyth_beta
  ext i j
  fin_cases i <;> fin_cases j
  · exact e00
  · exact e01
  · exact e02
  · exact e10
  · exact e11
  · exact e12
  · exact e20
  · exact e21
  · exact e22

lemma invUB_eq : invUB = !![0, a / (2 * Real.pi), 0;
                            -(b / (2 * Real.pi)), 0, 0;
                            0, c * cos beta / (2 * Real.pi),
                              c * sin beta / (2 * Real.pi)] := by
  show UB⁻¹ = _
  apply Matrix.inv_eq_right_inv
  rw [UB_eq]
  have e00 : ((!![0, -(2 * Real.pi) / b, 0;
      2 * Real.pi / a, 0, 0;
      -(2 * Real.pi * cos beta) / (a * sin beta), 0,
        2 * Real.pi / (c * sin beta)] : Matrix (Fin 3) (Fin 3) ℝ)
      * !![0, a / (2 * Real.pi), 0;
           -(b / (2 * Real.pi)), 0, 0;
           0, c * cos beta / (2 * Real.pi), c * sin beta / (2 * Real.pi)]) 0 0 = 1 := by
    rw [mul3_apply, mat3_00, mat3_01, mat3_02, mat3_00, mat3_10, mat3_20]
    field_simp [b_pos.ne', Real.pi_ne_zero]
  have e01 : ((!![0, -(2 * Real.pi) / b, 0;
      2 * Real.pi / a, 0, 0;
      -(2 * Real.pi * cos beta) / (a * sin beta), 0,
        2 * Real.pi / (c * sin beta)] : Matrix (Fin 3) (Fin 3) ℝ)
      * !![0, a / (2 * Real.pi), 0;
           -(b / (2 * Real.pi)), 0, 0;
           0, c * cos beta / (2 * Real.pi), c * sin beta / (2 * Real.pi)]) 0 1 = 0 := by
    rw [mul3_apply, mat3_00, mat3_01, mat3_02, mat3_01, mat3_11, mat3_21]
    ring
  have e02 : ((!![0, -(2 * Real.pi) / b, 0;
      2 * Real.pi / a, 0, 0;
      -(2 * Real.pi * cos beta) / (a * sin beta), 0,
        2 * Real.pi / (c * sin beta)] : Matrix (Fin 3) (Fin 3) ℝ)
      * !![0, a / (2 * Real.pi), 0;
           -(b / (2 * Real.pi)), 0, 0;
           0, c * cos beta / (2 * Real.pi), c * sin beta / (2 * Real.pi)]) 0 2 = 0 := by
    rw [mul3_apply, mat3_00, mat3_01, mat3_02, mat3_02, mat3_12, mat3_22]
    ring
  have e10 : ((!![0, -(2 * Real.pi) / b, 0;
      2 * Real.pi / a, 0, 0;
      -(2 * Real.pi * cos beta) / (a * sin beta), 0,
        2 * Real.pi / (c * sin beta)] : Matrix (Fin 3) (Fin 3) ℝ)
      * !![0, a / (2 * Real.pi), 0;
           -(b / (2 * Real.pi)), 0, 0;
           0, c * cos beta / (2 * Real.pi), c * sin beta / (2 * Real.pi)]) 1 0 = 0 := by
    rw [mul3_apply, mat3_10, mat3_11, mat3_12, mat3_00, mat3_10, mat3_20]
    ring
  have e11 : ((!![0, -(2 * Real.pi) / b, 0;
      2 * Real.pi / a, 0, 0;
      -(2 * Real.pi * cos beta) / (a * sin beta), 0,
        2 * Real.pi / (c * sin beta)] : Matrix (Fin 3) (Fin 3) ℝ)
      * !![0, a / (2 * Real.pi), 0;
           -(b / (2 * Real.pi)), 0, 0;
           0, c * cos beta / (2 * Real.pi), c * sin beta / (2 * Real.pi)]) 1 1 = 1 := by
    rw [mul3_apply, mat3_10, mat3_11, mat3_12, mat3_01, mat3_11, mat3_21]
    field_simp [a_pos.ne', Real.pi_ne_zero]
  have e12 : ((!![0, -(2 * Real.pi) / b, 0;
      2 * Real.pi / a, 0, 0;
      -(2 * Real.pi * cos beta) / (a * sin beta), 0,
        2 * Real.pi / (c * sin beta)] : Matrix (Fin 3) (Fin 3) ℝ)
      * !![0, a / (2 * Real.pi), 0;
           -(b / (2 * Real.pi)), 0, 0;
           0, c * cos beta / (2 * Real.pi), c * sin beta / (2 * Real.pi)]) 1 2 = 0 := by
    rw [mul3_apply, mat3_10, mat3_11, mat3_12, mat3_02, mat3_12, mat3_22]
    ring
  have e20 : ((!![0, -(2 * Real.pi) / b, 0;
      2 * Real.pi / a, 0, 0;
      -(2 * Real.pi * cos beta) / (a * sin beta), 0,
        2 * Real.pi / (c * sin beta)] : Matrix (Fin 3) (Fin 3) ℝ)
      * !![0, a / (2 * Real.pi), 0;
           -(b / (2 * Real.pi)), 0, 0;
           0, c * cos beta / (2 * Real.pi), c * sin beta / (2 * Real.pi)]) 2 0 = 0 := by
    rw [mul3_apply, mat3_20, mat3_21, mat3_22, mat3_00, mat3_10, mat3_20]
    ring
  have e21 : ((!![0, -(2 * Real.pi) / b, 0;
      2 * Real.pi / a, 0, 0;
      -(2 * Real.pi * cos beta) / (a * sin beta), 0,
        2 * Real.pi / (c * sin beta)] : Matrix (Fin 3) (Fin 3) ℝ)
      * !![0, a / (2 * Real.pi), 0;
           -(b / (2 * Real.pi)), 0, 0;
           0, c * cos beta / (2 * Real.pi), c * sin beta / (2 * Real.pi)]) 2 1 = 0 := by
    rw [mul3_apply, mat3_20, mat3_21, mat3_22, mat3_01, mat3_11, mat3_21]
    field_simp [a_pos.ne', c_pos.ne', sinbeta_pos.ne']
    ring
  have e22 : ((!![0, -(2 * Real.pi) / b, 0;
      2 * Real.pi / a, 0, 0;
      -(2 * Real.pi * cos beta) / (a * sin beta), 0,
        2 * Real.pi / (c * sin beta)] : Matrix (Fin 3) (Fin 3) ℝ)
      * !![0, a / (2 * Real.pi), 0;
           -(b / (2 * Real.pi)), 0, 0;
           0, c * cos beta / (2 * Real.pi), c * sin beta / (2 * Real.pi)]) 2 2 = 1 := by
    rw [mul3_apply, mat3_20, mat3_21, mat3_22, mat3_02, mat3_12, mat3_22]
    field_simp [c_pos.ne', sinbeta_pos.ne', Real.pi_ne_zero]
  have hone : ∀ i j : Fin 3, ((1 : Matrix (Fin 3) (Fin 3) ℝ)) i j
      = (!![1, 0, 0; 0, 1, 0; 0, 0, 1] : Matrix (Fin 3) (Fin 3) ℝ) i j := by
    intro i j
    rw [Matrix.one_fin_three]
  ext i j
  rw [hone]
  fin_cases i <;> fin_cases j
  · exact e00
  · exact e01
  · exact e02
  · exact e10
  · exact e11
  · exact e12
  · exact e20
  · exact e21
  · exact e22

/-! ## The two indexed HKL values of the example -/

lemma HKL1_eq : get_HKL position_1 invUB lam
    = ![0, 0, 2 * c * sin 22.379 * sin beta / lam] := by
  show invUB.mulVec (angles2cart 44.7580 22.3790 90.0000 0 lam) = _
  rw [q1_eq, invUB_eq]
  have e0 : (!![0, a / (2 * Real.pi), 0;
      -(b / (2 * Real.pi)), 0, 0;
      0, c * cos beta / (2 * Real.pi),
        c * sin beta / (2 * Real.pi)] : Matrix (Fin 3) (Fin 3) ℝ).mulVec
      ![0, 0, 4 * Real.pi * sin 22.379 / lam] 0 = 0 := by
    rw [mulVec3_apply, mat3_00, mat3_01, mat3_02, vec3_0, vec3_1, vec3_2]
    ring
  have e1 : (!![0, a / (2 * Real.pi), 0;
      -(b / (2 * Real.pi)), 0, 0;
      0, c * cos beta / (2 * Real.pi),
        c * sin beta / (2 * Real.pi)] : Matrix (Fin 3) (Fin 3) ℝ).mulVec
      ![0, 0, 4 * Real.pi * sin 22.379 / lam] 1 = 0 := by
    rw [mulVec3_apply, mat3_10, mat3_11, mat3_12, vec3_0, vec3_1, vec3_2]
    ring
  have e2 : (!![0, a / (2 * Real.pi), 0;
      -(b / (2 * Real.pi)), 0, 0;
      0, c * cos beta / (2 * Real.pi),
        c * sin beta / (2 * Real.pi)] : Matrix (Fin 3) (Fin 3) ℝ).mulVec
      ![0, 0, 4 * Real.pi * sin 22.379 / lam] 2
      = 2 * c * sin 22.379 * sin beta / lam := by
    rw [mulVec3_apply, mat3_20, mat3_21, mat3_22, vec3_0, vec3_1, vec3_2]
    field_simp [Real.pi_ne_zero, lam_pos.ne']
    ring
  funext i
  fin_cases i
  · exact e0
  · exact e1
  · exact e2

lemma HKL2_eq : get_HKL position_2 invUB lam
    = ![-(2 * a * sin 27.90925 * sin 13.17375 / lam), 0,
        2 * c * sin 27.90925 * (sin beta * cos 13.17375 - cos beta * sin 13.17375) / lam] := by
  show invUB.mulVec (angles2cart 55.8185 14.7355 90.0000 0 lam) = _
  rw [q2_eq, invUB_eq]
  have e0 : (!![0, a / (2 * Real.pi), 0;
      -(b / (2 * Real.pi)), 0, 0;
      0, c * cos beta / (2 * Real.pi),
        c * sin beta / (2 * Real.pi)] : Matrix (Fin 3) (Fin 3) ℝ).mulVec
      ![0, -(4 * Real.pi * sin 27.90925 * sin 13.17375 / lam),
        4 * Real.pi * sin 27.90925 * cos 13.17375 / lam] 0
      = -(2 * a * sin 27.90925 * sin 13.17375 / lam) := by
    rw [mulVec3_apply, mat3_00, mat3_01, mat3_02, vec3_0, vec3_1, vec3_2]
    field_simp [Real.pi_ne_zero, lam_pos.ne']
    ring
  have e1 : (!![0, a / (2 * Real.pi), 0;
      -(b / (2 * Real.pi)), 0, 0;
      0, c * cos beta / (2 * Real.pi),
        c * sin beta / (2 * Real.pi)] : Matrix (Fin 3) (Fin 3) ℝ).mulVec
      ![0, -(4 * Real.pi * sin 27.90925 * sin 13.17375 / lam),
        4 * Real.pi * sin 27.90925 * cos 13.17375 / lam] 1 = 0 := by
    rw [mulVec3_apply, mat3_10, mat3_11, mat3_12, vec3_0, vec3_1, vec3_2]
    ring
  have e2 : (!![0, a / (2 * Real.pi), 0;
      -(b / (2 * Real.pi)), 0, 0;
      0, c * cos beta / (2 * Real.pi),
        c * sin beta / (2 * Real.pi)] : Matrix (Fin 3) (Fin 3) ℝ).mulVec
      ![0, -(4 * Real.pi * sin 27.90925 * sin 13.17375 / lam),
        4 * Real.pi * sin 27.90925 * cos 13.17375 / lam] 2
      = 2 * c * sin 27.90925 * (sin beta * cos 13.17375 - cos beta * sin 13.17375) / lam := by
    rw [mulVec3_apply, mat3_20, mat3_21, mat3_22, vec3_0, vec3_1, vec3_2]
    field_simp [Real.pi_ne_zero, lam_pos.ne']
    ring
  funext i
  fin_cases i
  · exact e0
  · exact e1
  · exact e2

/-- If f has nonnegative derivative on the open right half-line and f 0 is
nonnegative, then f is nonnegative on the closed right half-line. -/
lemma nonneg_of_deriv_nonneg_right {f f' : ℝ → ℝ}
    (hd : ∀ x : ℝ, HasDerivAt f (f' x) x)
    (h0 : ∀ x : ℝ, 0 < x → 0 ≤ f' x) (hf0 : 0 ≤ f 0) :
    ∀ x : ℝ, 0 ≤ x → 0 ≤ f x := by
  intro x hx
  have hmono : MonotoneOn f (Set.Ici (0 : ℝ)) := by
    apply monotoneOn_of_deriv_nonneg (convex_Ici 0)
    · exact fun y _ => (hd y).continuousAt.continuousWithinAt
    · exact fun y _ => ((hd y).differentiableAt).differentiableWithinAt
    · intro y hy
      rw [interior_Ici, Set.mem_Ioi] at hy
      rw [(hd y).deriv]
      exact h0 y hy
  calc (0 : ℝ) ≤ f 0 := hf0
  _ ≤ f x := hmono Set.left_mem_Ici (Set.mem_Ici.2 hx) hx

lemma sin_ge_cubic (x : ℝ) (hx : 0 ≤ x) : x - x ^ 3 / 6 ≤ Real.sin x := by
  have hd : ∀ t : ℝ, HasDerivAt (fun y => Real.sin y - (y - y ^ 3 / 6))
      (Real.cos t - (1 - t ^ 2 / 2)) t := by
    intro t
    have h2 : HasDerivAt (fun y : ℝ => y - y ^ 3 / 6) (1 - t ^ 2 / 2) t := by
      have h3 := (hasDerivAt_id t).sub ((hasDerivAt_pow 3 t).div_const 6)
      convert h3 using 1
      push_cast
      ring
    exact (Real.hasDerivAt_sin t).sub h2
  have key := nonneg_of_deriv_nonneg_right hd
    (fun t _ => sub_nonneg.2 Real.one_sub_sq_div_two_le_cos) (by simp) x hx
  linarith [key]

lemma cos_le_quartic (x : ℝ) (hx : 0 ≤ x) :
    Real.cos x ≤ 1 - x ^ 2 / 2 + x ^ 4 / 24 := by
  have hd : ∀ t : ℝ, HasDerivAt (fun y => 1 - y ^ 2 / 2 + y ^ 4 / 24 - Real.cos y)
      (Real.sin t - (t - t ^ 3 / 6)) t := by
    intro t
    have h2 : HasDerivAt (fun y : ℝ => 1 - y ^ 2 / 2 + y ^ 4 / 24)
        (-(t - t ^ 3 / 6)) t := by
      have h3 := (((hasDerivAt_const t (1 : ℝ)).sub
        ((hasDerivAt_pow 2 t).div_const 2)).add ((hasDerivAt_pow 4 t).div_const 24))
      convert h3 using 1
      push_cast
      ring
    have h4 := h2.sub (Real.hasDerivAt_cos t)
    convert h4 using 1
    ring
  have key := nonneg_of_deriv_nonneg_right hd
    (fun t ht => sub_nonneg.2 (sin_ge_cubic t ht.le)) (by simp) x hx
  linarith [key]

lemma sin_le_quintic (x : ℝ) (hx : 0 ≤ x) :
    Real.sin x ≤ x - x ^ 3 / 6 + x ^ 5 / 120 := by
  have hd : ∀ t : ℝ, HasDerivAt (fun y => y - y ^ 3 / 6 + y ^ 5 / 120 - Real.sin y)
      (1 - t ^ 2 / 2 + t ^ 4 / 24 - Real.cos t) t := by
    intro t
    have h2 : HasDerivAt (fun y : ℝ => y - y ^ 3 / 6 + y ^ 5 / 120)
        (1 - t ^ 2 / 2 + t ^ 4 / 24) t := by
      have h3 := (((hasDerivAt_id t).sub
        ((hasDerivAt_pow 3 t).div_const 6)).add ((hasDerivAt_pow 5 t).div_const 120))
      convert h3 using 1
      push_cast
      ring
    exact h2.sub (Real.hasDerivAt_sin t)
  have key := nonneg_of_deriv_nonneg_right hd
    (fun t ht => sub_nonneg.2 (cos_le_quartic t ht.le)) (by simp) x hx
  linarith [key]

lemma cos_ge_sextic (x : ℝ) (hx : 0 ≤ x) :
    1 - x ^ 2 / 2 + x ^ 4 / 24 - x ^ 6 / 720 ≤ Real.cos x := by
  have hd : ∀ t : ℝ,
      HasDerivAt (fun y => Real.cos y - (1 - y ^ 2 / 2 + y ^ 4 / 24 - y ^ 6 / 720))
      (t - t ^ 3 / 6 + t ^ 5 / 120 - Real.sin t) t := by
    intro t
    have h2 : HasDerivAt (fun y : ℝ => 1 - y ^ 2 / 2 + y ^ 4 / 24 - y ^ 6 / 720)
        (-(t - t ^ 3 / 6 + t ^ 5 / 120)) t := by
      have h3 := ((((hasDerivAt_const t (1 : ℝ)).sub
        ((hasDerivAt_pow 2 t).div_const 2)).add
        ((hasDerivAt_pow 4 t).div_const 24)).sub ((hasDerivAt_pow 6 t).div_const 720))
      convert h3 using 1
      push_cast
      ring
    have h4 := (Real.hasDerivAt_cos t).sub h2
    convert h4 using 1
    ring
  have key := nonneg_of_deriv_nonneg_right hd
    (fun t ht => sub_nonneg.2 (sin_le_quintic t ht.le)) (by simp) x hx
  linarith [key]

lemma sin_ge_septic (x : ℝ) (hx : 0 ≤ x) :
    x - x ^ 3 / 6 + x ^ 5 / 120 - x ^ 7 / 5040 ≤ Real.sin x := by
  have hd : ∀ t : ℝ,
      HasDerivAt (fun y => Real.sin y - (y - y ^ 3 / 6 + y ^ 5 / 120 - y ^ 7 / 5040))
      (Real.cos t - (1 - t ^ 2 / 2 + t ^ 4 / 24 - t ^ 6 / 720)) t := by
    intro t
    have h2 : HasDerivAt (fun y : ℝ => y - y ^ 3 / 6 + y ^ 5 / 120 - y ^ 7 / 5040)
        (1 - t ^ 2 / 2 + t ^ 4 / 24 - t ^ 6 / 720) t := by
      have h3 := ((((hasDerivAt_id t).sub
        ((hasDerivAt_pow 3 t).div_const 6)).add
        ((hasDerivAt_pow 5 t).div_const 120)).sub ((hasDerivAt_pow 7 t).div_const 5040))
      convert h3 using 1
      push_cast
      ring
    exact (Real.hasDerivAt_sin t).sub h2
  have key := nonneg_of_deriv_nonneg_right hd
    (fun t ht => sub_nonneg.2 (cos_ge_sextic t ht.le)) (by simp) x hx
  linarith [key]

/-- Two-sided polynomial bounds for Real.sin on a subinterval of the unit
interval, via monotonicity of sine on the first quadrant. -/
lemma sin_interval {lo hi x : ℝ} (hlo : 0 ≤ lo) (h1 : lo ≤ x) (h2 : x ≤ hi)
    (hhi : hi ≤ 1) :
    lo - lo ^ 3 / 6 + lo ^ 5 / 120 - lo ^ 7 / 5040 ≤ Real.sin x ∧
      Real.sin x ≤ hi - hi ^ 3 / 6 + hi ^ 5 / 120 := by
  have hpi := Real.pi_gt_three
  constructor
  · have ha := sin_ge_septic lo hlo
    have hb : Real.sin lo ≤ Real.sin x :=
      Real.sin_le_sin_of_le_of_le_pi_div_two (by linarith) (by linarith) h1
    linarith
  · have ha : Real.sin x ≤ Real.sin hi :=
      Real.sin_le_sin_of_le_of_le_pi_div_two (by linarith) (by linarith) h2
    have hb := sin_le_quintic hi (by linarith : (0 : ℝ) ≤ hi)
    linarith

/-- Two-sided polynomial bounds for Real.cos on a subinterval of the unit
interval, via antitonicity of cosine on the first quadrant. -/
lemma cos_interval {lo hi x : ℝ} (hlo : 0 ≤ lo) (h1 : lo ≤ x) (h2 : x ≤ hi)
    (hhi : hi ≤ 1) :
    1 - hi ^ 2 / 2 + hi ^ 4 / 24 - hi ^ 6 / 720 ≤ Real.cos x ∧
      Real.cos x ≤ 1 - lo ^ 2 / 2 + lo ^ 4 / 24 := by
  have hpi := Real.pi_gt_three
  constructor
  · have ha := cos_ge_sextic hi (by linarith : (0 : ℝ) ≤ hi)
    have hb : Real.cos hi ≤ Real.cos x :=
      Real.cos_le_cos_of_nonneg_of_le_pi (by linarith) (by linarith) h2
    linarith
  · have ha : Real.cos x ≤ Real.cos lo :=
      Real.cos_le_cos_of_nonneg_of_le_pi hlo (by linarith) h1
    have hb := cos_le_quartic lo hlo
    linarith

lemma x1_bounds : (0.3905871 : ℝ) ≤ 22.379 * (Real.pi / 180) ∧
    22.379 * (Real.pi / 180) ≤ 0.3905873 := by
  have h1 := Real.pi_gt_3141592
  have h2 := Real.pi_lt_3141593
  constructor <;> nlinarith

lemma x2_bounds : (0.4871082 : ℝ) ≤ 27.90925 * (Real.pi / 180) ∧
    27.90925 * (Real.pi / 180) ≤ 0.4871084 := by
  have h1 := Real.pi_gt_3141592
  have h2 := Real.pi_lt_3141593
  constructor <;> nlinarith

lemma xpsi_bounds : (0.2299252 : ℝ) ≤ 13.17375 * (Real.pi / 180) ∧
    13.17375 * (Real.pi / 180) ≤ 0.2299254 := by
  have h1 := Real.pi_gt_3141592
  have h2 := Real.pi_lt_3141593
  constructor <;> nlinarith

lemma y107_bounds : (0.1867501 : ℝ) ≤ 10.7 * (Real.pi / 180) ∧
    10.7 * (Real.pi / 180) ≤ 0.1867503 := by
  have h1 := Real.pi_gt_3141592
  have h2 := Real.pi_lt_3141593
  constructor <;> nlinarith

lemma s1_bounds : (0.3807313 : ℝ) ≤ sin 22.379 ∧ sin 22.379 ≤ 0.3807319 := by
  obtain ⟨h1, h2⟩ := x1_bounds
  obtain ⟨hl, hu⟩ := sin_interval (show (0 : ℝ) ≤ 0.3905871 by norm_num) h1 h2
    (by norm_num)
  exact ⟨le_trans (by norm_num) hl, le_trans hu (by norm_num)⟩

lemma s2_bounds : (0.4680723 : ℝ) ≤ sin 27.90925 ∧ sin 27.90925 ≤ 0.4680739 := by
  obtain ⟨h1, h2⟩ := x2_bounds
  obtain ⟨hl, hu⟩ := sin_interval (show (0 : ℝ) ≤ 0.4871082 by norm_num) h1 h2
    (by norm_num)
  exact ⟨le_trans (by norm_num) hl, le_trans hu (by norm_num)⟩

lemma spsi_bounds : (0.2279046 : ℝ) ≤ sin 13.17375 ∧ sin 13.17375 ≤ 0.2279050 := by
  obtain ⟨h1, h2⟩ := xpsi_bounds
  obtain ⟨hl, hu⟩ := sin_interval (show (0 : ℝ) ≤ 0.2299252 by norm_num) h1 h2
    (by norm_num)
  exact ⟨le_trans (by norm_num) hl, le_trans hu (by norm_num)⟩

lemma cpsi_bounds : (0.9736833 : ℝ) ≤ cos 13.17375 ∧ cos 13.17375 ≤ 0.9736837 := by
  obtain ⟨h1, h2⟩ := xpsi_bounds
  obtain ⟨hl, hu⟩ := cos_interval (show (0 : ℝ) ≤ 0.2299252 by norm_num) h1 h2
    (by norm_num)
  exact ⟨le_trans (by norm_num) hl, le_trans hu (by norm_num)⟩

lemma s107_bounds : (0.1856664 : ℝ) ≤ Real.sin (10.7 * (Real.pi / 180)) ∧
    Real.sin (10.7 * (Real.pi / 180)) ≤ 0.1856667 := by
  obtain ⟨h1, h2⟩ := y107_bounds
  obtain ⟨hl, hu⟩ := sin_interval (show (0 : ℝ) ≤ 0.1867501 by norm_num) h1 h2
    (by norm_num)
  exact ⟨le_trans (by norm_num) hl, le_trans hu (by norm_num)⟩

lemma c107_bounds : (0.9826127 : ℝ) ≤ Real.cos (10.7 * (Real.pi / 180)) ∧
    Real.cos (10.7 * (Real.pi / 180)) ≤ 0.9826130 := by
  obtain ⟨h1, h2⟩ := y107_bounds
  obtain ⟨hl, hu⟩ := cos_interval (show (0 : ℝ) ≤ 0.1867501 by norm_num) h1 h2
    (by norm_num)
  exact ⟨le_trans (by norm_num) hl, le_trans hu (by norm_num)⟩

lemma sinbeta_eq : sin beta = Real.cos (10.7 * (Real.pi / 180)) := by
  show Real.sin ((100.7 : ℝ) * (Real.pi / 180)) = _
  have h : (100.7 : ℝ) * (Real.pi / 180) = Real.pi / 2 + 10.7 * (Real.pi / 180) := by
    ring
  rw [h, Real.sin_add, Real.sin_pi_div_two, Real.cos_pi_div_two]
  ring

lemma cosbeta_eq : cos beta = -Real.sin (10.7 * (Real.pi / 180)) := by
  show Real.cos ((100.7 : ℝ) * (Real.pi / 180)) = _
  have h : (100.7 : ℝ) * (Real.pi / 180) = Real.pi / 2 + 10.7 * (Real.pi / 180) := by
    ring
  rw [h, Real.cos_add, Real.sin_pi_div_two, Real.cos_pi_div_two]
  ring

lemma hkl1_comp2_bounds :
    (3.999 : ℝ) ≤ 2 * c * sin 22.379 * sin beta / lam ∧
      2 * c * sin 22.379 * sin beta / lam ≤ 4.001 := by
  obtain ⟨h1, h2⟩ := s1_bounds
  obtain ⟨h3, h4⟩ := c107_bounds
  rw [sinbeta_eq]
  have hc : c = 6.628 := rfl
  have hlam : lam = 12398 / 10000 := rfl
  rw [hc, hlam]
  have hplo : (0.3807313 : ℝ) * 0.9826127
      ≤ sin 22.379 * Real.cos (10.7 * (Real.pi / 180)) :=
    mul_le_mul h1 h3 (by norm_num) (by linarith)
  have hphi : sin 22.379 * Real.cos (10.7 * (Real.pi / 180))
      ≤ (0.3807319 : ℝ) * 0.9826130 :=
    mul_le_mul h2 h4 (by linarith) (by norm_num)
  constructor
  · nlinarith [hplo]
  · nlinarith [hphi]

lemma hkl2_comp0_bounds :
    (0.999 : ℝ) ≤ 2 * a * sin 27.90925 * sin 13.17375 / lam ∧
      2 * a * sin 27.90925 * sin 13.17375 / lam ≤ 1.001 := by
  obtain ⟨h1, h2⟩ := s2_bounds
  obtain ⟨h3, h4⟩ := spsi_bounds
  have ha : a = 5.811 := rfl
  have hlam : lam = 12398 / 10000 := rfl
  rw [ha, hlam]
  have hplo : (0.4680723 : ℝ) * 0.2279046 ≤ sin 27.90925 * sin 13.17375 :=
    mul_le_mul h1 h3 (by norm_num) (by linarith)
  have hphi : sin 27.90925 * sin 13.17375 ≤ (0.4680739 : ℝ) * 0.2279050 :=
    mul_le_mul h2 h4 (by linarith) (by norm_num)
  constructor
  · nlinarith [hplo]
  · nlinarith [hphi]

lemma hkl2_comp2_bounds :
    (4.999 : ℝ) ≤ 2 * c * sin 27.90925 *
        (sin beta * cos 13.17375 - cos beta * sin 13.17375) / lam ∧
      2 * c * sin 27.90925 *
        (sin beta * cos 13.17375 - cos beta * sin 13.17375) / lam ≤ 5.001 := by
  obtain ⟨h1, h2⟩ := s2_bounds
  obtain ⟨h3, h4⟩ := cpsi_bounds
  obtain ⟨h5, h6⟩ := spsi_bounds
  obtain ⟨h7, h8⟩ := c107_bounds
  obtain ⟨h9, h10⟩ := s107_bounds
  rw [sinbeta_eq, cosbeta_eq]
  have hc : c = 6.628 := rfl
  have hlam : lam = 12398 / 10000 := rfl
  rw [hc, hlam]
  have hwlo : (0.9826127 : ℝ) * 0.9736833 + 0.1856664 * 0.2279046
      ≤ Real.cos (10.7 * (Real.pi / 180)) * cos 13.17375
        + Real.sin (10.7 * (Real.pi / 180)) * sin 13.17375 :=
    add_le_add (mul_le_mul h7 h3 (by norm_num) (by linarith))
      (mul_le_mul h9 h5 (by norm_num) (by linarith))
  have hwhi : Real.cos (10.7 * (Real.pi / 180)) * cos 13.17375
        + Real.sin (10.7 * (Real.pi / 180)) * sin 13.17375
      ≤ (0.9826130 : ℝ) * 0.9736837 + 0.1856667 * 0.2279050 :=
    add_le_add (mul_le_mul h8 h4 (by linarith) (by norm_num))
      (mul_le_mul h10 h6 (by linarith) (by norm_num))
  have hplo : (0.4680723 : ℝ) * (0.9826127 * 0.9736833 + 0.1856664 * 0.2279046)
      ≤ sin 27.90925 * (Real.cos (10.7 * (Real.pi / 180)) * cos 13.17375
        + Real.sin (10.7 * (Real.pi / 180)) * sin 13.17375) :=
    mul_le_mul h1 hwlo (by norm_num) (by linarith)
  have hphi : sin 27.90925 * (Real.cos (10.7 * (Real.pi / 180)) * cos 13.17375
        + Real.sin (10.7 * (Real.pi / 180)) * sin 13.17375)
      ≤ (0.4680739 : ℝ) * (0.9826130 * 0.9736837 + 0.1856667 * 0.2279050) :=
    mul_le_mul h2 hwhi (by linarith) (by norm_num)
  constructor
  · nlinarith [hplo]
  · nlinarith [hphi]

/-- C1: for the example cell a=5.811, b=10.07, c=6.628, alpha=90, beta=100.7,
gamma=90 and wavelength lam=1.2398, with B, U, UB and invUB built from
position_1=(44.7580, 22.3790, 90, 0) assigned (0,0,4) and
position_2=(55.8185, 14.7355, 90, 0) assigned (-1,0,5), running the two
positions back through get_HKL reproduces the assignments (0,0,4) and
(-1,0,5), each component within 1e-3. -/
theorem C1_round_trip_indexing :
    |get_HKL position_1 invUB lam 0 - 0| ≤ 0.001 ∧
    |get_HKL position_1 invUB lam 1 - 0| ≤ 0.001 ∧
    |get_HKL position_1 invUB lam 2 - 4| ≤ 0.001 ∧
    |get_HKL position_2 invUB lam 0 - (-1)| ≤ 0.001 ∧
    |get_HKL position_2 invUB lam 1 - 0| ≤ 0.001 ∧
    |get_HKL position_2 invUB lam 2 - 5| ≤ 0.001 := by
  obtain ⟨ha1, ha2⟩ := hkl1_comp2_bounds
  obtain ⟨hb1, hb2⟩ := hkl2_comp0_bounds
  obtain ⟨hc1, hc2⟩ := hkl2_comp2_bounds
  rw [HKL1_eq, HKL2_eq, vec3_0, vec3_1, vec3_2, vec3_0, vec3_1, vec3_2]
  refine ⟨by norm_num, by norm_num, ?_, ?_, by norm_num, ?_⟩
  · rw [abs_le]
    constructor <;> linarith
  · rw [abs_le]
    constructor <;> linarith
  · rw [abs_le]
    constructor <;> linarith

end







